import Mathlib

/-!
Verification development for the Marching Cubes isosurface extractor
(`src/MarchingCubes.cpp`, Lewiner et al. topologically consistent variant).

The C++ `real` (float) arithmetic is shallowly embedded into `ℚ`: the
algorithm uses only field operations and comparisons, which `ℚ` models
exactly; `std::numeric_limits<float>::epsilon()` becomes the rational
constant `eps = 2⁻²³`.  Division is `ℚ`'s total division (`x / 0 = 0`);
every divisor the algorithm relies on is shown non-zero where it matters.
The unit-normalization of vertex normals (a division by an irrational
square root) is omitted: normals are stored as the interpolated
central-difference gradients, and no property below concerns the
normalized values.

The static lookup tables of `LookUpTable.h` are not part of the sources
under verification; every function that consults them is parameterized by
a `Tables` record holding the table contents, whose shape follows the
spec's description of the tables.
-/

/-- Machine epsilon of `float`, the perturbation / degeneracy threshold
`std::numeric_limits<float>::epsilon()` used throughout the source. -/
def eps : ℚ := 1 / 2 ^ 23

/-- The ε-perturbation applied to every loaded corner value
(`MarchingCubes.cpp` lines 79 and 162-165): a value whose absolute value
is below machine epsilon is replaced by `+ε`. -/
def perturb (v : ℚ) : ℚ := if |v| < eps then eps else v

/-- A mesh vertex (`Vertex { x,y,z, nx,ny,nz }`).  The normal components
hold the linearly interpolated central-difference gradients; the final
unit-normalization of the source is an irrational scaling and is omitted
(no claim concerns normal values). -/
structure Vertex where
  x : ℚ
  y : ℚ
  z : ℚ
  nx : ℚ
  ny : ℚ
  nz : ℚ
deriving Repr, DecidableEq, Inhabited

/-- A mesh triangle (`Triangle { v1,v2,v3 }`), vertex ids as in the source
(`int`, with `-1` as the invalid-id sentinel). -/
structure Triangle where
  v1 : ℤ
  v2 : ℤ
  v3 : ℤ
deriving Repr, DecidableEq, Inhabited

/-- The instance state of a `MarchingCubes` object: grid dimensions, the
(read-only) sample array, the three edge-vertex interning maps (sentinel
`-1` as in the source's `memset(-1)`), the mesh buffers, and the
classical/topological mode flag `_originalMC`.  The cell-local scratch
fields of the C++ class (`_cube`, `_i/_j/_k`, `_case/_config/_subconfig`,
`_lut_entry`) are passed explicitly to the helpers instead of being
stored, and the capacity bookkeeping (`_Nverts/_Ntrigs`) of the growable
buffers is dropped (lists grow freely). -/
structure MCState where
  size_x : ℕ
  size_y : ℕ
  size_z : ℕ
  data : ℕ → ℕ → ℕ → ℚ
  x_verts : ℕ × ℕ × ℕ → ℤ
  y_verts : ℕ × ℕ × ℕ → ℤ
  z_verts : ℕ × ℕ × ℕ → ℤ
  nverts : ℕ
  ntrigs : ℕ
  vertices : List Vertex
  triangles : List Triangle
  originalMC : Bool

/-- `get_data(i,j,k)` — sample accessor. -/
def get_data (s : MCState) (i j k : ℕ) : ℚ := s.data i j k

/-- `get_x_grad` — central-difference x-gradient with one-sided
differences at the grid boundary. -/
def get_x_grad (s : MCState) (i j k : ℕ) : ℚ :=
  if 0 < i then
    if i < s.size_x - 1 then (get_data s (i+1) j k - get_data s (i-1) j k) / 2
    else get_data s i j k - get_data s (i-1) j k
  else get_data s (i+1) j k - get_data s i j k

/-- `get_y_grad` — central-difference y-gradient. -/
def get_y_grad (s : MCState) (i j k : ℕ) : ℚ :=
  if 0 < j then
    if j < s.size_y - 1 then (get_data s i (j+1) k - get_data s i (j-1) k) / 2
    else get_data s i j k - get_data s i (j-1) k
  else get_data s i (j+1) k - get_data s i j k

/-- `get_z_grad` — central-difference z-gradient. -/
def get_z_grad (s : MCState) (i j k : ℕ) : ℚ :=
  if 0 < k then
    if k < s.size_z - 1 then (get_data s i j (k+1) - get_data s i j (k-1)) / 2
    else get_data s i j k - get_data s i j (k-1)
  else get_data s i j (k+1) - get_data s i j k

/-- `add_x_vertex` — appends the interpolated vertex on the x-edge out of
corner `(i,j,k)`; `c0, c1` are the (perturbed) values at the two edge
endpoints, the interpolation parameter is `u = c0 / (c0 - c1)`.  The id
the source returns is the pre-append `nverts`. -/
def add_x_vertex (s : MCState) (i j k : ℕ) (c0 c1 : ℚ) : MCState :=
  let u := c0 / (c0 - c1)
  let v : Vertex :=
    { x := (i : ℚ) + u, y := (j : ℚ), z := (k : ℚ)
    , nx := (1-u) * get_x_grad s i j k + u * get_x_grad s (i+1) j k
    , ny := (1-u) * get_y_grad s i j k + u * get_y_grad s (i+1) j k
    , nz := (1-u) * get_z_grad s i j k + u * get_z_grad s (i+1) j k }
  { s with nverts := s.nverts + 1, vertices := s.vertices ++ [v] }

/-- `add_y_vertex` — vertex on the y-edge out of `(i,j,k)`, endpoint
values `c0, c3`. -/
def add_y_vertex (s : MCState) (i j k : ℕ) (c0 c3 : ℚ) : MCState :=
  let u := c0 / (c0 - c3)
  let v : Vertex :=
    { x := (i : ℚ), y := (j : ℚ) + u, z := (k : ℚ)
    , nx := (1-u) * get_x_grad s i j k + u * get_x_grad s i (j+1) k
    , ny := (1-u) * get_y_grad s i j k + u * get_y_grad s i (j+1) k
    , nz := (1-u) * get_z_grad s i j k + u * get_z_grad s i (j+1) k }
  { s with nverts := s.nverts + 1, vertices := s.vertices ++ [v] }

/-- `add_z_vertex` — vertex on the z-edge out of `(i,j,k)`, endpoint
values `c0, c4`. -/
def add_z_vertex (s : MCState) (i j k : ℕ) (c0 c4 : ℚ) : MCState :=
  let u := c0 / (c0 - c4)
  let v : Vertex :=
    { x := (i : ℚ), y := (j : ℚ), z := (k : ℚ) + u
    , nx := (1-u) * get_x_grad s i j k + u * get_x_grad s i j (k+1)
    , ny := (1-u) * get_y_grad s i j k + u * get_y_grad s i j (k+1)
    , nz := (1-u) * get_z_grad s i j k + u * get_z_grad s i j (k+1) }
  { s with nverts := s.nverts + 1, vertices := s.vertices ++ [v] }

/-- `set_x_vert(val, i,j,k)` — writes an id into the x-edge interning map. -/
def set_x_vert (s : MCState) (val : ℤ) (i j k : ℕ) : MCState :=
  { s with x_verts := fun q => if q = (i, j, k) then val else s.x_verts q }

/-- `set_y_vert(val, i,j,k)`. -/
def set_y_vert (s : MCState) (val : ℤ) (i j k : ℕ) : MCState :=
  { s with y_verts := fun q => if q = (i, j, k) then val else s.y_verts q }

/-- `set_z_vert(val, i,j,k)`. -/
def set_z_vert (s : MCState) (val : ℤ) (i j k : ℕ) : MCState :=
  { s with z_verts := fun q => if q = (i, j, k) then val else s.z_verts q }

/-- The fixed corner table of `test_face` (`corner_lookup[6][4]`): row
`|face| - 1` lists the four corners `(A,B,C,D)` of that face. -/
def corner_lookup : List (List (Fin 8)) :=
  [[0, 4, 5, 1], [1, 5, 6, 2], [2, 6, 7, 3], [3, 7, 4, 0], [0, 3, 2, 1], [4, 7, 6, 5]]

/-- `test_face(face)` — face-saddle sign test on the current cell's corner
values `cube`.  Out-of-range rows (undefined behaviour in the source) are
totalized through `List.getD`. -/
def test_face (cube : Fin 8 → ℚ) (face : ℤ) : Bool :=
  let corners := corner_lookup.getD (face.natAbs - 1) []
  let A := cube (corners.getD 0 0)
  let B := cube (corners.getD 1 0)
  let C := cube (corners.getD 2 0)
  let D := cube (corners.getD 3 0)
  if |A * C - B * D| < eps then decide (0 ≤ face)
  else decide (0 ≤ (face : ℚ) * A * (A * C - B * D))

/-- The final `switch(test)` of `test_interior` (lines 353-377): `test` is
the 4-bit sign pattern of `At, Bt, Ct, Dt`; cases 5 and 10 break to the
fallthrough `return s < 0` when their determinant condition fails. -/
def interior_decision (s : ℤ) (At Bt Ct Dt : ℚ) : Bool :=
  let test : ℕ :=
    (if 0 ≤ At then 1 else 0) + (if 0 ≤ Bt then 2 else 0) +
    (if 0 ≤ Ct then 4 else 0) + (if 0 ≤ Dt then 8 else 0)
  match test with
  | 5 => if At * Ct - Bt * Dt < eps then decide (0 < s) else decide (s < 0)
  | 7 => decide (s < 0)
  | 10 => if eps ≤ At * Ct - Bt * Dt then decide (0 < s) else decide (s < 0)
  | 11 => decide (s < 0)
  | 13 => decide (s < 0)
  | 14 => decide (s < 0)
  | 15 => decide (s < 0)
  | _ => decide (0 < s)

/-- The 12-branch `switch(edge)` of `test_interior` for cases 6/7/12/13:
for a valid reference edge it produces `(At, Bt, Ct, Dt)` (with `At = 0`)
at parameter `t` along that edge; an invalid edge yields `none` (the
source prints a diagnostic and leaves all four values `0`). -/
def edge_abcd (cube : Fin 8 → ℚ) (edge : ℤ) : Option (ℚ × ℚ × ℚ × ℚ) :=
  match edge with
  | 0 => let t := cube 0 / (cube 0 - cube 1)
         some (0, cube 3 + (cube 2 - cube 3) * t, cube 7 + (cube 6 - cube 7) * t,
               cube 4 + (cube 5 - cube 4) * t)
  | 1 => let t := cube 1 / (cube 1 - cube 2)
         some (0, cube 0 + (cube 3 - cube 0) * t, cube 4 + (cube 7 - cube 4) * t,
               cube 5 + (cube 6 - cube 5) * t)
  | 2 => let t := cube 2 / (cube 2 - cube 3)
         some (0, cube 1 + (cube 0 - cube 1) * t, cube 5 + (cube 4 - cube 5) * t,
               cube 6 + (cube 7 - cube 6) * t)
  | 3 => let t := cube 3 / (cube 3 - cube 0)
         some (0, cube 2 + (cube 1 - cube 2) * t, cube 6 + (cube 5 - cube 6) * t,
               cube 7 + (cube 4 - cube 7) * t)
  | 4 => let t := cube 4 / (cube 4 - cube 5)
         some (0, cube 7 + (cube 6 - cube 7) * t, cube 3 + (cube 2 - cube 3) * t,
               cube 0 + (cube 1 - cube 0) * t)
  | 5 => let t := cube 5 / (cube 5 - cube 6)
         some (0, cube 4 + (cube 7 - cube 4) * t, cube 0 + (cube 3 - cube 0) * t,
               cube 1 + (cube 2 - cube 1) * t)
  | 6 => let t := cube 6 / (cube 6 - cube 7)
         some (0, cube 5 + (cube 4 - cube 5) * t, cube 1 + (cube 0 - cube 1) * t,
               cube 2 + (cube 3 - cube 2) * t)
  | 7 => let t := cube 7 / (cube 7 - cube 4)
         some (0, cube 6 + (cube 5 - cube 6) * t, cube 2 + (cube 1 - cube 2) * t,
               cube 3 + (cube 0 - cube 3) * t)
  | 8 => let t := cube 0 / (cube 0 - cube 4)
         some (0, cube 3 + (cube 7 - cube 3) * t, cube 2 + (cube 6 - cube 2) * t,
               cube 1 + (cube 5 - cube 1) * t)
  | 9 => let t := cube 1 / (cube 1 - cube 5)
         some (0, cube 0 + (cube 4 - cube 0) * t, cube 3 + (cube 7 - cube 3) * t,
               cube 2 + (cube 6 - cube 2) * t)
  | 10 => let t := cube 2 / (cube 2 - cube 6)
          some (0, cube 1 + (cube 5 - cube 1) * t, cube 0 + (cube 4 - cube 0) * t,
                cube 3 + (cube 7 - cube 3) * t)
  | 11 => let t := cube 3 / (cube 3 - cube 7)
          some (0, cube 2 + (cube 6 - cube 2) * t, cube 1 + (cube 5 - cube 1) * t,
                cube 0 + (cube 4 - cube 0) * t)
  | _ => none

/-- `test_interior(s)` — the interior test, with the instance fields made
explicit: `cube` is the cell's corner array, `cas` is `_case`, and `edge`
is the table-selected reference edge (`test6[_config][2]`,
`test7[_config][4]`, `test12[_config][3]` or
`tiling13_5_1[_config][_subconfig][0]`; the tables live outside `src/`,
so the looked-up value is a parameter).  For an unrecognized `_case` or
`edge` the source prints a diagnostic and falls through to the decision
with `At = Bt = Ct = Dt = 0`. -/
def test_interior (cube : Fin 8 → ℚ) (cas edge s : ℤ) : Bool :=
  if cas = 4 ∨ cas = 10 then
    let a := (cube 4 - cube 0) * (cube 6 - cube 2) - (cube 7 - cube 3) * (cube 5 - cube 1)
    let b := cube 2 * (cube 4 - cube 0) + cube 0 * (cube 6 - cube 2)
             - cube 1 * (cube 7 - cube 3) - cube 3 * (cube 5 - cube 1)
    let t := -b / (2 * a)
    if t < 0 ∨ 1 < t then decide (0 < s)
    else
      interior_decision s (cube 0 + (cube 4 - cube 0) * t) (cube 3 + (cube 7 - cube 3) * t)
        (cube 2 + (cube 6 - cube 2) * t) (cube 1 + (cube 5 - cube 1) * t)
  else if cas = 6 ∨ cas = 7 ∨ cas = 12 ∨ cas = 13 then
    match edge_abcd cube edge with
    | some (At, Bt, Ct, Dt) => interior_decision s At Bt Ct Dt
    | none => interior_decision s 0 0 0 0
  else interior_decision s 0 0 0 0

/-- Modelled from the spec: the static lookup tables of `LookUpTable.h`
are code of this repository that is not under `src/` (only their callers
are), and the spec fixes their indexing shape but not their contents
("they are the specification ... cross-verify them against the published
Lewiner tables"), so the contents are carried as parameters.  `cases`
maps the 8-bit case index to `(base case, configuration)`;
`casesClassic` is the flat `-1`-terminated classical edge list; the
`testN` rows drive face/interior tests; `subconfig13` is the 64-entry
remap; the `tilingN...` entries are per-configuration triangle edge
lists. -/
structure Tables where
  cases : ℕ → ℤ × ℤ := fun _ => (0, 0)
  casesClassic : ℕ → List ℤ := fun _ => []
  test3 : ℤ → ℤ := fun _ => 0
  test4 : ℤ → ℤ := fun _ => 0
  test6 : ℤ → ℕ → ℤ := fun _ _ => 0
  test7 : ℤ → ℕ → ℤ := fun _ _ => 0
  test10 : ℤ → ℕ → ℤ := fun _ _ => 0
  test12 : ℤ → ℕ → ℤ := fun _ _ => 0
  test13 : ℤ → ℕ → ℤ := fun _ _ => 0
  subconfig13 : ℕ → ℤ := fun _ => 0
  tiling1 : ℤ → List ℤ := fun _ => []
  tiling2 : ℤ → List ℤ := fun _ => []
  tiling3_1 : ℤ → List ℤ := fun _ => []
  tiling3_2 : ℤ → List ℤ := fun _ => []
  tiling4_1 : ℤ → List ℤ := fun _ => []
  tiling4_2 : ℤ → List ℤ := fun _ => []
  tiling5 : ℤ → List ℤ := fun _ => []
  tiling6_1_1 : ℤ → List ℤ := fun _ => []
  tiling6_1_2 : ℤ → List ℤ := fun _ => []
  tiling6_2 : ℤ → List ℤ := fun _ => []
  tiling7_1 : ℤ → List ℤ := fun _ => []
  tiling7_2 : ℤ → ℕ → List ℤ := fun _ _ => []
  tiling7_3 : ℤ → ℕ → List ℤ := fun _ _ => []
  tiling7_4_1 : ℤ → List ℤ := fun _ => []
  tiling7_4_2 : ℤ → List ℤ := fun _ => []
  tiling8 : ℤ → List ℤ := fun _ => []
  tiling9 : ℤ → List ℤ := fun _ => []
  tiling10_1_1 : ℤ → List ℤ := fun _ => []
  tiling10_1_1_ : ℤ → List ℤ := fun _ => []
  tiling10_1_2 : ℤ → List ℤ := fun _ => []
  tiling10_2 : ℤ → List ℤ := fun _ => []
  tiling10_2_ : ℤ → List ℤ := fun _ => []
  tiling11 : ℤ → List ℤ := fun _ => []
  tiling12_1_1 : ℤ → List ℤ := fun _ => []
  tiling12_1_1_ : ℤ → List ℤ := fun _ => []
  tiling12_1_2 : ℤ → List ℤ := fun _ => []
  tiling12_2 : ℤ → List ℤ := fun _ => []
  tiling12_2_ : ℤ → List ℤ := fun _ => []
  tiling13_1 : ℤ → List ℤ := fun _ => []
  tiling13_1_ : ℤ → List ℤ := fun _ => []
  tiling13_2 : ℤ → ℕ → List ℤ := fun _ _ => []
  tiling13_2_ : ℤ → ℕ → List ℤ := fun _ _ => []
  tiling13_3 : ℤ → ℕ → List ℤ := fun _ _ => []
  tiling13_3_ : ℤ → ℕ → List ℤ := fun _ _ => []
  tiling13_4 : ℤ → ℕ → List ℤ := fun _ _ => []
  tiling13_5_1 : ℤ → ℕ → List ℤ := fun _ _ => []
  tiling13_5_2 : ℤ → ℕ → List ℤ := fun _ _ => []
  tiling14 : ℤ → List ℤ := fun _ => []

/-- One `add_triangle(tile, n, v12)` call that `process_cube` decided on:
the tile's edge list, the triangle count `n`, and whether the branch first
synthesizes a central vertex (`v12 = add_c_vertex()`). -/
structure Emission where
  tile : List ℤ
  n : ℕ
  needC : Bool
deriving Repr, DecidableEq

/-- The `switch(subconfig13[_subconfig])` of case 13 in `process_cube`
(lines 555-707), keyed by the remapped value `r`: 0 → 13.1; 1-6 → 13.2;
7-18 → 13.3 (central vertex); 19-22 → 13.4 (central vertex); 23-26 → 13.5
(interior test between `tiling13_5_1` and `tiling13_5_2`, reference edge
`tiling13_5_1[config][subconfig][0]`); 27-38 → 13.3 mirror (central
vertex); 39-44 → 13.2 mirror; 45 → 13.1 mirror; anything else prints
"Impossible case 13?" and emits nothing. -/
def dispatch13 (t : Tables) (cube : Fin 8 → ℚ) (cfg : ℤ) (r : ℤ) : List Emission :=
  if r = 0 then [⟨t.tiling13_1 cfg, 4, false⟩]
  else if 1 ≤ r ∧ r ≤ 6 then [⟨t.tiling13_2 cfg (r - 1).toNat, 6, false⟩]
  else if 7 ≤ r ∧ r ≤ 18 then [⟨t.tiling13_3 cfg (r - 7).toNat, 10, true⟩]
  else if 19 ≤ r ∧ r ≤ 22 then [⟨t.tiling13_4 cfg (r - 19).toNat, 12, true⟩]
  else if 23 ≤ r ∧ r ≤ 26 then
    let sc := (r - 23).toNat
    if test_interior cube 13 ((t.tiling13_5_1 cfg sc).headI) (t.test13 cfg 6) then
      [⟨t.tiling13_5_1 cfg sc, 6, false⟩]
    else
      [⟨t.tiling13_5_2 cfg sc, 10, false⟩]
  else if 27 ≤ r ∧ r ≤ 38 then [⟨t.tiling13_3_ cfg (r - 27).toNat, 10, true⟩]
  else if 39 ≤ r ∧ r ≤ 44 then [⟨t.tiling13_2_ cfg (r - 39).toNat, 6, false⟩]
  else if r = 45 then [⟨t.tiling13_1_ cfg, 4, false⟩]
  else []

/-- The topological branch of `process_cube` (lines 397-713): looks up
`(case, config) = cases[lut]` and resolves the base case to the list of
`add_triangle` calls to perform.  `_subconfig` starts at 0 and, for cases
7 and 13, is assembled from the face tests. -/
def dispatch (t : Tables) (cube : Fin 8 → ℚ) (lut : ℕ) : List Emission :=
  let cfg := (t.cases lut).2
  match (t.cases lut).1 with
  | 0 => []
  | 1 => [⟨t.tiling1 cfg, 1, false⟩]
  | 2 => [⟨t.tiling2 cfg, 2, false⟩]
  | 3 =>
    if test_face cube (t.test3 cfg) then [⟨t.tiling3_2 cfg, 4, false⟩]
    else [⟨t.tiling3_1 cfg, 2, false⟩]
  | 4 =>
    if test_interior cube 4 (-1) (t.test4 cfg) then [⟨t.tiling4_1 cfg, 2, false⟩]
    else [⟨t.tiling4_2 cfg, 6, false⟩]
  | 5 => [⟨t.tiling5 cfg, 3, false⟩]
  | 6 =>
    if test_face cube (t.test6 cfg 0) then [⟨t.tiling6_2 cfg, 5, false⟩]
    else if test_interior cube 6 (t.test6 cfg 2) (t.test6 cfg 1) then
      [⟨t.tiling6_1_1 cfg, 3, false⟩]
    else [⟨t.tiling6_1_2 cfg, 9, true⟩]
  | 7 =>
    let sub : ℕ :=
      (if test_face cube (t.test7 cfg 0) then 1 else 0) +
      (if test_face cube (t.test7 cfg 1) then 2 else 0) +
      (if test_face cube (t.test7 cfg 2) then 4 else 0)
    match sub with
    | 0 => [⟨t.tiling7_1 cfg, 3, false⟩]
    | 1 => [⟨t.tiling7_2 cfg 0, 5, false⟩]
    | 2 => [⟨t.tiling7_2 cfg 1, 5, false⟩]
    | 3 => [⟨t.tiling7_3 cfg 0, 9, true⟩]
    | 4 => [⟨t.tiling7_2 cfg 2, 5, false⟩]
    | 5 => [⟨t.tiling7_3 cfg 1, 9, true⟩]
    | 6 => [⟨t.tiling7_3 cfg 2, 9, true⟩]
    | _ =>
      if test_interior cube 7 (t.test7 cfg 4) (t.test7 cfg 3) then
        [⟨t.tiling7_4_2 cfg, 9, false⟩]
      else [⟨t.tiling7_4_1 cfg, 5, false⟩]
  | 8 => [⟨t.tiling8 cfg, 2, false⟩]
  | 9 => [⟨t.tiling9 cfg, 4, false⟩]
  | 10 =>
    if test_face cube (t.test10 cfg 0) then
      if test_face cube (t.test10 cfg 1) then [⟨t.tiling10_1_1_ cfg, 4, false⟩]
      else [⟨t.tiling10_2 cfg, 8, true⟩]
    else
      if test_face cube (t.test10 cfg 1) then [⟨t.tiling10_2_ cfg, 8, true⟩]
      else
        if test_interior cube 10 (-1) (t.test10 cfg 2) then [⟨t.tiling10_1_1 cfg, 4, false⟩]
        else [⟨t.tiling10_1_2 cfg, 8, false⟩]
  | 11 => [⟨t.tiling11 cfg, 4, false⟩]
  | 12 =>
    if test_face cube (t.test12 cfg 0) then
      if test_face cube (t.test12 cfg 1) then [⟨t.tiling12_1_1_ cfg, 4, false⟩]
      else [⟨t.tiling12_2 cfg, 8, true⟩]
    else
      if test_face cube (t.test12 cfg 1) then [⟨t.tiling12_2_ cfg, 8, true⟩]
      else
        if test_interior cube 12 (t.test12 cfg 3) (t.test12 cfg 2) then
          [⟨t.tiling12_1_1 cfg, 4, false⟩]
        else [⟨t.tiling12_1_2 cfg, 8, false⟩]
  | 13 =>
    let sub : ℕ :=
      (if test_face cube (t.test13 cfg 0) then 1 else 0) +
      (if test_face cube (t.test13 cfg 1) then 2 else 0) +
      (if test_face cube (t.test13 cfg 2) then 4 else 0) +
      (if test_face cube (t.test13 cfg 3) then 8 else 0) +
      (if test_face cube (t.test13 cfg 4) then 16 else 0) +
      (if test_face cube (t.test13 cfg 5) then 32 else 0)
    dispatch13 t cube cfg (t.subconfig13 sub)
  | 14 => [⟨t.tiling14 cfg, 4, false⟩]
  | _ => []

/-- The edge-id → vertex-id translation of `add_triangle` (lines 728-744):
edge ids 0-11 read the interning maps of the cell at `(i,j,k)`, id 12 is
the central vertex `v12`.  The source's `default: break` leaves the local
slot stale (uninitialized on first use); it is totalized to the invalid-id
sentinel `-1`, a value the tables never produce. -/
def tri_of (s : MCState) (i j k : ℕ) (v12 : ℤ) (e : ℤ) : ℤ :=
  match e with
  | 0 => s.x_verts (i, j, k)
  | 1 => s.y_verts (i+1, j, k)
  | 2 => s.x_verts (i, j+1, k)
  | 3 => s.y_verts (i, j, k)
  | 4 => s.x_verts (i, j, k+1)
  | 5 => s.y_verts (i+1, j, k+1)
  | 6 => s.x_verts (i, j+1, k+1)
  | 7 => s.y_verts (i, j, k+1)
  | 8 => s.z_verts (i, j, k)
  | 9 => s.z_verts (i+1, j, k)
  | 10 => s.z_verts (i+1, j+1, k)
  | 11 => s.z_verts (i, j+1, k)
  | 12 => v12
  | _ => -1

/-- The first `n` consecutive triples of a tile's flat edge list (the
source reads `trig[0 .. 3n-1]` three at a time; a list shorter than `3n`
— out-of-bounds in the source — yields only the complete triples). -/
def tri_chunks : List ℤ → ℕ → List (ℤ × ℤ × ℤ)
  | a :: b :: c :: rest, n + 1 => (a, b, c) :: tri_chunks rest n
  | _, _ => []

/-- `add_triangle(trig, n, v12)` — translates each of the `n` edge triples
through `tri_of` and appends the resulting triangles (an id of `-1` is
reported in the source but the triangle is appended regardless). -/
def add_triangle (s : MCState) (i j k : ℕ) (trig : List ℤ) (n : ℕ) (v12 : ℤ) : MCState :=
  let ts := (tri_chunks trig n).map fun w =>
    Triangle.mk (tri_of s i j k v12 w.1) (tri_of s i j k v12 w.2.1) (tri_of s i j k v12 w.2.2)
  { s with ntrigs := s.ntrigs + ts.length, triangles := s.triangles ++ ts }

/-- The twelve edge-interned vertex ids of the cell at `(i,j,k)`, in the
order `add_c_vertex` probes them (lines 930-953). -/
def c_vert_ids (s : MCState) (i j k : ℕ) : List ℤ :=
  [ s.x_verts (i, j, k), s.y_verts (i+1, j, k), s.x_verts (i, j+1, k), s.y_verts (i, j, k)
  , s.x_verts (i, j, k+1), s.y_verts (i+1, j, k+1), s.x_verts (i, j+1, k+1), s.y_verts (i, j, k+1)
  , s.z_verts (i, j, k), s.z_verts (i+1, j, k), s.z_verts (i+1, j+1, k), s.z_verts (i, j+1, k) ]

/-- `add_c_vertex` — appends the cell's central vertex: the average of the
positions (and the sum of the gradients) of the cell's interned edge
vertices, skipping sentinel entries.  The returned id is the pre-append
`nverts`. -/
def add_c_vertex (s : MCState) (i j k : ℕ) : MCState :=
  let found := ((c_vert_ids s i j k).filter (· ≠ -1)).map
    fun vid => s.vertices.getD vid.toNat default
  let u : ℚ := found.length
  let v : Vertex :=
    { x := (found.map Vertex.x).sum / u
    , y := (found.map Vertex.y).sum / u
    , z := (found.map Vertex.z).sum / u
    , nx := (found.map Vertex.nx).sum
    , ny := (found.map Vertex.ny).sum
    , nz := (found.map Vertex.nz).sum }
  { s with nverts := s.nverts + 1, vertices := s.vertices ++ [v] }

/-- Performs one decided `add_triangle` call, synthesizing the central
vertex first when the branch requires it (`v12` defaults to `-1`). -/
def apply_emission (s : MCState) (i j k : ℕ) (e : Emission) : MCState :=
  if e.needC then add_triangle (add_c_vertex s i j k) i j k e.tile e.n (s.nverts : ℤ)
  else add_triangle s i j k e.tile e.n (-1)

/-- Performs the decided `add_triangle` calls in order. -/
def apply_emissions (s : MCState) (i j k : ℕ) (es : List Emission) : MCState :=
  es.foldl (fun m e => apply_emission m i j k e) s

/-- The classical triangle count: `while(casesClassic[lut][3*nt] != -1) nt++`
(line 392), stopping at the list's end where the source would read past
the `-1` terminator. -/
def classic_nt (l : List ℤ) : ℕ :=
  ((List.range (l.length + 1)).takeWhile fun nt =>
    match l[3 * nt]? with
    | some v => decide (v ≠ -1)
    | none => false).length

/-- `process_cube()` — tiles one cell: the classical mode reads
`casesClassic[lut]` directly; the topological mode resolves the base case
through `dispatch` and performs the decided emissions. -/
def process_cube (t : Tables) (s : MCState) (i j k : ℕ) (cube : Fin 8 → ℚ) (lut : ℕ) :
    MCState :=
  if s.originalMC then
    add_triangle s i j k (t.casesClassic lut) (classic_nt (t.casesClassic lut)) (-1)
  else
    apply_emissions s i j k (dispatch t cube lut)

/-- The iteration domain of a triple loop `for k for j for i`, innermost
index first in each triple. -/
def indices3 (nx ny nz : ℕ) : List (ℕ × ℕ × ℕ) :=
  (List.range nz).flatMap fun k =>
    (List.range ny).flatMap fun j =>
      (List.range nx).map fun i => (i, j, k)

/-- The body of `compute_intersection_points` for one `(i,j,k)` (lines
152-178): loads and perturbs the corner and its three forward neighbours
(duplicating the corner at the +x/+y/+z boundary, which forces "no
intersection"), then interns a vertex on each sign-changing forward
edge. -/
def cip_step (iso : ℚ) (s : MCState) (q : ℕ × ℕ × ℕ) : MCState :=
  match q with
  | (i, j, k) =>
    let c0 := perturb (s.data i j k - iso)
    let c1 := if i < s.size_x - 1 then perturb (s.data (i+1) j k - iso) else c0
    let c3 := if j < s.size_y - 1 then perturb (s.data i (j+1) k - iso) else c0
    let c4 := if k < s.size_z - 1 then perturb (s.data i j (k+1) - iso) else c0
    let addX := fun (m : MCState) => set_x_vert (add_x_vertex m i j k c0 c1) (m.nverts : ℤ) i j k
    let addY := fun (m : MCState) => set_y_vert (add_y_vertex m i j k c0 c3) (m.nverts : ℤ) i j k
    let addZ := fun (m : MCState) => set_z_vert (add_z_vertex m i j k c0 c4) (m.nverts : ℤ) i j k
    if c0 < 0 then
      let m1 := if 0 < c1 then addX s else s
      let m2 := if 0 < c3 then addY m1 else m1
      if 0 < c4 then addZ m2 else m2
    else
      let m1 := if c1 < 0 then addX s else s
      let m2 := if c3 < 0 then addY m1 else m1
      if c4 < 0 then addZ m2 else m2

/-- `compute_intersection_points(iso)` — the edge-intersection pass over
every grid point. -/
def compute_intersection_points (iso : ℚ) (s : MCState) : MCState :=
  (indices3 s.size_x s.size_y s.size_z).foldl (cip_step iso) s

/-- The cell's corner array as loaded by `run`'s inner loop (line 78):
corner `p` has lattice offset `((p ^ (p>>1)) & 1, (p>>1) & 1, (p>>2) & 1)`,
and the loaded value is ε-perturbed. -/
def cell_cube (data : ℕ → ℕ → ℕ → ℚ) (iso : ℚ) (i j k : ℕ) : Fin 8 → ℚ := fun p =>
  perturb (data (i + ((p.val ^^^ (p.val >>> 1)) &&& 1)) (j + ((p.val >>> 1) &&& 1))
    (k + ((p.val >>> 2) &&& 1)) - iso)

/-- The 8-bit case index `_lut_entry` accumulated by `run`'s inner loop
(line 80), unrolled over the eight corners. -/
def cell_lut (cube : Fin 8 → ℚ) : ℕ :=
  (if 0 < cube 0 then 1 else 0) + (if 0 < cube 1 then 2 else 0) +
  (if 0 < cube 2 then 4 else 0) + (if 0 < cube 3 then 8 else 0) +
  (if 0 < cube 4 then 16 else 0) + (if 0 < cube 5 then 32 else 0) +
  (if 0 < cube 6 then 64 else 0) + (if 0 < cube 7 then 128 else 0)

/-- The body of `run`'s cell loop for one cell `(i,j,k)`. -/
def cell_step (t : Tables) (iso : ℚ) (s : MCState) (q : ℕ × ℕ × ℕ) : MCState :=
  match q with
  | (i, j, k) =>
    process_cube t s i j k (cell_cube s.data iso i j k) (cell_lut (cell_cube s.data iso i j k))

/-- `run(iso)` — the main algorithm: the edge-intersection pass followed
by the cell pass over all `(size-1)³` cells.  Note that `run` performs no
reset of the mesh or the interning maps. -/
def run (t : Tables) (iso : ℚ) (s : MCState) : MCState :=
  let s1 := compute_intersection_points iso s
  (indices3 (s1.size_x - 1) (s1.size_y - 1) (s1.size_z - 1)).foldl (cell_step t iso) s1

/-- `init_all()` — resets the mesh buffers and (through `init_temps`'s
`memset(-1)`) the three interning maps; the sample data and the mode flag
are untouched. -/
def init_all (s : MCState) : MCState :=
  { size_x := s.size_x, size_y := s.size_y, size_z := s.size_z, data := s.data
  , x_verts := fun _ => -1, y_verts := fun _ => -1, z_verts := fun _ => -1
  , nverts := 0, ntrigs := 0, vertices := [], triangles := []
  , originalMC := s.originalMC }

/-- `set_method(originalMC)` — the mode switch setter.  Modelled from the
spec: the setter itself lives in the header `MarchingCubes.h`, which is
not under `src/`; its semantics — storing the argument into the
`_originalMC` flag that `process_cube` branches on — is fixed by the
member's name, the caller `glui_mc.cpp` (`mc.set_method(originalMC == 1)`
under the comment "original/topological MC switch") and the spec's
"the classical mode (`set_method(true)`)". -/
def set_method (s : MCState) (originalMC : Bool) : MCState :=
  { s with originalMC := originalMC }

/-- The `MarchingCubes(size_x, size_y, size_z)` constructor (lines 36-46):
`_originalMC(false)`, counts zero, buffers unallocated (maps at the
sentinel). -/
def mc_new (sx sy sz : ℕ) (data : ℕ → ℕ → ℕ → ℚ) : MCState :=
  { size_x := sx, size_y := sy, size_z := sz, data := data
  , x_verts := fun _ => -1, y_verts := fun _ => -1, z_verts := fun _ => -1
  , nverts := 0, ntrigs := 0, vertices := [], triangles := []
  , originalMC := false }

/-- The decision table of the interior test exactly as the specification
phrases it: `s > 0` for `test ∈ {0,1,2,3,4,6,8,9,12}`, `s < 0` for
`test ∈ {7,11,13,14,15}`, the determinant comparisons for 5 and 10, and
`s < 0` on every fallthrough. -/
def interior_decision_spec (s : ℤ) (At Bt Ct Dt : ℚ) : Bool :=
  let test : ℕ :=
    (if 0 ≤ At then 1 else 0) + (if 0 ≤ Bt then 2 else 0) +
    (if 0 ≤ Ct then 4 else 0) + (if 0 ≤ Dt then 8 else 0)
  if test ∈ [0, 1, 2, 3, 4, 6, 8, 9, 12] then decide (0 < s)
  else if test ∈ [7, 11, 13, 14, 15] then decide (s < 0)
  else if test = 5 then
    (if At * Ct - Bt * Dt < eps then decide (0 < s) else decide (s < 0))
  else if test = 10 then
    (if eps ≤ At * Ct - Bt * Dt then decide (0 < s) else decide (s < 0))
  else decide (s < 0)

/-- The interior test on base cases 4 and 10 as claim C1 states it:
`t = -b/(2a)`, early `s > 0` for `t ∉ [0,1]`, then the four body-parallel
interpolations and the decision table. -/
def interior_spec_4_10 (cube : Fin 8 → ℚ) (s : ℤ) : Bool :=
  let a := (cube 4 - cube 0) * (cube 6 - cube 2) - (cube 7 - cube 3) * (cube 5 - cube 1)
  let b := cube 2 * (cube 4 - cube 0) + cube 0 * (cube 6 - cube 2)
           - cube 1 * (cube 7 - cube 3) - cube 3 * (cube 5 - cube 1)
  let t := -b / (2 * a)
  if t < 0 ∨ 1 < t then decide (0 < s)
  else
    interior_decision_spec s (cube 0 + (cube 4 - cube 0) * t) (cube 3 + (cube 7 - cube 3) * t)
      (cube 2 + (cube 6 - cube 2) * t) (cube 1 + (cube 5 - cube 1) * t)

/-- The switch of the interior test agrees with the spec's decision
table, for every sign pattern of `At, Bt, Ct, Dt`. -/
theorem interior_decision_eq_spec (s : ℤ) (At Bt Ct Dt : ℚ) :
    interior_decision s At Bt Ct Dt = interior_decision_spec s At Bt Ct Dt := by
  unfold interior_decision interior_decision_spec
  by_cases hA : 0 ≤ At <;> by_cases hB : 0 ≤ Bt <;> by_cases hC : 0 ≤ Ct <;>
    by_cases hD : 0 ≤ Dt <;> simp [hA, hB, hC, hD]

/-- C1: for the interior test on base cases 4 and 10, with
`a = (c4-c0)(c6-c2) - (c7-c3)(c5-c1)` and
`b = c2(c4-c0) + c0(c6-c2) - c1(c7-c3) - c3(c5-c1)`, the test takes
`t = -b/(2a)` and returns `s > 0` whenever `t < 0` or `t > 1`; otherwise
it interpolates `At, Bt, Ct, Dt` along the four body-parallel edges at
parameter `t`, forms `test = [At≥0] + 2[Bt≥0] + 4[Ct≥0] + 8[Dt≥0]`,
returns `s > 0` for `test ∈ {0,1,2,3,4,6,8,9,12}`, `s < 0` for
`test ∈ {7,11,13,14,15}`, for `test = 5` returns `s > 0` iff
`At·Ct - Bt·Dt < ε` (else the `s < 0` fallthrough), for `test = 10`
returns `s > 0` iff `At·Ct - Bt·Dt ≥ ε` (else the fallthrough), and
`s < 0` on every fallthrough — stated as: on cases 4 and 10,
`test_interior` coincides with the spec-transcribed decision procedure,
for every cube, tie-breaker sign and (unused) reference edge. -/
theorem C1_interior_cases_4_10 (cube : Fin 8 → ℚ) (edge s : ℤ) :
    test_interior cube 4 edge s = interior_spec_4_10 cube s ∧
    test_interior cube 10 edge s = interior_spec_4_10 cube s := by
  constructor <;>
  · unfold test_interior interior_spec_4_10
    rw [if_pos (by norm_num)]
    simp only [interior_decision_eq_spec]

/-- The face test as claim C2 states it: select the face corners
`(A,B,C,D)` from the fixed table (face 1: corners 0,4,5,1; face 2:
1,5,6,2; face 3: 2,6,7,3; face 4: 3,7,4,0; face 5: 0,3,2,1; face 6:
4,7,6,5), return `f ≥ 0` when `|A·C - B·D| < ε`, and otherwise return
true iff `f · A · (A·C - B·D) ≥ 0`. -/
def test_face_spec (cube : Fin 8 → ℚ) (face : ℤ) : Bool :=
  let table : List (List (Fin 8)) :=
    [[0, 4, 5, 1], [1, 5, 6, 2], [2, 6, 7, 3], [3, 7, 4, 0], [0, 3, 2, 1], [4, 7, 6, 5]]
  let corners := table.getD (face.natAbs - 1) []
  let A := cube (corners.getD 0 0)
  let B := cube (corners.getD 1 0)
  let C := cube (corners.getD 2 0)
  let D := cube (corners.getD 3 0)
  if |A * C - B * D| < eps then decide (0 ≤ face)
  else decide (0 ≤ (face : ℚ) * A * (A * C - B * D))

/-- C2: for every signed face id `f` in `{±1, …, ±6}`, `test_face`
selects the face corners from the fixed table on the current cell's cube
values and returns `f ≥ 0` when `|A·C - B·D| < ε`, and otherwise returns
true iff `f · A · (A·C - B·D) ≥ 0` — stated as agreement with the
spec-transcribed predicate on every valid face id. -/
theorem C2_test_face (cube : Fin 8 → ℚ) (face : ℤ)
    (h1 : 1 ≤ face.natAbs) (h2 : face.natAbs ≤ 6) :
    test_face cube face = test_face_spec cube face := rfl

/-- Witness for C2 at `face = 1` on a concrete corner assignment. -/
theorem C2_test_face_witness :
    1 ≤ (1 : ℤ).natAbs ∧ (1 : ℤ).natAbs ≤ 6 ∧
    test_face (fun p => (p.val : ℚ) - 3) 1 = test_face_spec (fun p => (p.val : ℚ) - 3) 1 :=
  ⟨by decide, by decide, C2_test_face (fun p => (p.val : ℚ) - 3) 1 (by decide) (by decide)⟩

/-- With all four interpolated values left at their initialization `0`
(the diagnostic paths), the sign pattern `test` is 15 and the decision is
the `s < 0` fallthrough. -/
theorem interior_decision_zero (s : ℤ) : interior_decision s 0 0 0 0 = decide (s < 0) := by
  simp [interior_decision]

/-- A reference edge outside `0..11` falls into the diagnostic default of
the edge switch. -/
theorem edge_abcd_invalid (cube : Fin 8 → ℚ) (edge : ℤ) (h : edge < 0 ∨ 11 < edge) :
    edge_abcd cube edge = none := by
  rw [edge_abcd.eq_def]
  split <;> first | omega | rfl

/-- C8: if the interior test's reference edge lies outside `0..11`,
`test_interior` returns `s < 0` (for each of the dispatching cases 6, 7,
12, 13); if `test_interior` is dispatched with a case other than
4, 6, 7, 10, 12, 13, it returns `s < 0`; and if in case 13 the
`subconfig13` remap yields an index outside the handled range `0..45`,
the cell emits no triangles.  Each path only prints a diagnostic, so
`run` does not fail. -/
theorem C8_diagnostics :
    (∀ (cube : Fin 8 → ℚ) (edge s : ℤ), edge < 0 ∨ 11 < edge →
      test_interior cube 6 edge s = decide (s < 0) ∧
      test_interior cube 7 edge s = decide (s < 0) ∧
      test_interior cube 12 edge s = decide (s < 0) ∧
      test_interior cube 13 edge s = decide (s < 0)) ∧
    (∀ (cube : Fin 8 → ℚ) (cas edge s : ℤ),
      cas ≠ 4 ∧ cas ≠ 6 ∧ cas ≠ 7 ∧ cas ≠ 10 ∧ cas ≠ 12 ∧ cas ≠ 13 →
      test_interior cube cas edge s = decide (s < 0)) ∧
    (∀ (t : Tables) (cube : Fin 8 → ℚ) (cfg r : ℤ), r < 0 ∨ 45 < r →
      dispatch13 t cube cfg r = []) := by
  refine ⟨fun cube edge s h => ?_, fun cube cas edge s h => ?_, fun t cube cfg r h => ?_⟩
  · refine ⟨?_, ?_, ?_, ?_⟩ <;>
    · unfold test_interior
      rw [if_neg (by norm_num), if_pos (by norm_num), edge_abcd_invalid cube edge h]
      exact interior_decision_zero s
  · unfold test_interior
    rw [if_neg (by omega), if_neg (by omega)]
    exact interior_decision_zero s
  · unfold dispatch13
    split_ifs <;> first | omega | rfl

/-- Witness for C8 at concrete inputs: edge `-1` for case 6, case `5`,
and remap value `46`. -/
theorem C8_diagnostics_witness :
    (((-1 : ℤ) < 0 ∨ 11 < (-1 : ℤ)) ∧
      test_interior (fun _ => 1) 6 (-1) 7 = decide ((7 : ℤ) < 0)) ∧
    (((5 : ℤ) ≠ 4 ∧ (5 : ℤ) ≠ 6 ∧ (5 : ℤ) ≠ 7 ∧ (5 : ℤ) ≠ 10 ∧ (5 : ℤ) ≠ 12 ∧ (5 : ℤ) ≠ 13) ∧
      test_interior (fun _ => 1) 5 0 7 = decide ((7 : ℤ) < 0)) ∧
    (((46 : ℤ) < 0 ∨ 45 < (46 : ℤ)) ∧
      dispatch13 {} (fun _ => 1) 0 46 = []) :=
  ⟨⟨Or.inl (by decide), (C8_diagnostics.1 (fun _ => 1) (-1) 7 (Or.inl (by decide))).1⟩,
   ⟨by refine ⟨?_, ?_, ?_, ?_, ?_, ?_⟩ <;> decide,
    C8_diagnostics.2.1 (fun _ => 1) 5 0 7 (by refine ⟨?_, ?_, ?_, ?_, ?_, ?_⟩ <;> decide)⟩,
   ⟨Or.inr (by decide), C8_diagnostics.2.2 {} (fun _ => 1) 0 46 (Or.inr (by decide))⟩⟩


/-- A concrete corner assignment hitting the scenario of claim C3:
corner 0 positive, the seven others negative, so the three (negated)
face-5 tests succeed and the reference-edge-0 interior test returns
true. -/
def cubeC3 : Fin 8 → ℚ := fun p => if p.val = 0 then 1 else -1

/-- Modelled from the spec: a stand-in assignment for the missing
`LookUpTable.h` contents (the spec fixes only their indexing shape), used
to exercise the case-7 dispatch of `process_cube`: every case index maps
to base case 7 configuration 0, the `test7` row is `(-5, -5, -5, 7, 0)`
(three face tests, tie-breaker sign, reference edge), and the two 7.4
tilings carry distinct marker lists. -/
def tablesC3 : Tables :=
  { cases := fun _ => (7, 0)
  , test7 := fun _ n => if n ≤ 2 then -5 else if n = 3 then 7 else 0
  , tiling7_4_1 := fun _ => [1]
  , tiling7_4_2 := fun _ => [2] }

/-- On `cubeC3` the face test for face `-5` succeeds. -/
theorem cubeC3_face : test_face cubeC3 (-5) = true := by
  norm_num [test_face, corner_lookup, eps,
    show cubeC3 0 = 1 from rfl, show cubeC3 1 = -1 from rfl, show cubeC3 2 = -1 from rfl,
    show cubeC3 3 = -1 from rfl, show cubeC3 4 = -1 from rfl, show cubeC3 5 = -1 from rfl,
    show cubeC3 6 = -1 from rfl, show cubeC3 7 = -1 from rfl]

/-- On `cubeC3` the case-7 interior test with reference edge 0 and
tie-breaker `+7` returns true. -/
theorem cubeC3_interior : test_interior cubeC3 7 0 7 = true := by
  norm_num [test_interior, edge_abcd, interior_decision, eps,
    show cubeC3 0 = 1 from rfl, show cubeC3 1 = -1 from rfl, show cubeC3 2 = -1 from rfl,
    show cubeC3 3 = -1 from rfl, show cubeC3 4 = -1 from rfl, show cubeC3 5 = -1 from rfl,
    show cubeC3 6 = -1 from rfl, show cubeC3 7 = -1 from rfl]

/-- Counterexample to C3: a cell dispatched to base case 7 with all three
face tests true (subconfig 7) and a *true* interior test emits
`tiling7_4_2` with 9 triangles — not `tiling7_4_1` with 5 triangles as
claimed (`process_cube` lines 471-476 take `tiling7_4_2` on a true
interior test and `tiling7_4_1` on a false one). -/
theorem C3_counterexample :
    (tablesC3.cases (cell_lut cubeC3)).1 = 7 ∧
    test_face cubeC3 (tablesC3.test7 0 0) = true ∧
    test_face cubeC3 (tablesC3.test7 0 1) = true ∧
    test_face cubeC3 (tablesC3.test7 0 2) = true ∧
    test_interior cubeC3 7 (tablesC3.test7 0 4) (tablesC3.test7 0 3) = true ∧
    dispatch tablesC3 cubeC3 (cell_lut cubeC3) = [⟨tablesC3.tiling7_4_2 0, 9, false⟩] ∧
    tablesC3.tiling7_4_2 0 ≠ tablesC3.tiling7_4_1 0 ∧ (9 : ℕ) ≠ 5 := by
  refine ⟨rfl, cubeC3_face, cubeC3_face, cubeC3_face, cubeC3_interior, ?_, by decide, by decide⟩
  unfold dispatch
  simp only [show tablesC3.cases (cell_lut cubeC3) = (7, 0) from rfl,
    show tablesC3.test7 0 0 = -5 from rfl, show tablesC3.test7 0 1 = -5 from rfl,
    show tablesC3.test7 0 2 = -5 from rfl, show tablesC3.test7 0 3 = 7 from rfl,
    show tablesC3.test7 0 4 = 0 from rfl, cubeC3_face, cubeC3_interior, if_true]

/-- C3 as amended: for every cell that the topological method dispatches
to base case 7 with all three face tests true (subconfig = 7) and whose
interior test returns true, the cell emits `tiling7_4_2` with 9 triangles
(`tiling7_4_1` with 5 triangles is emitted when the interior test returns
false). -/
theorem C3_amended (t : Tables) (cube : Fin 8 → ℚ) (lut : ℕ)
    (h7 : (t.cases lut).1 = 7)
    (hf0 : test_face cube (t.test7 (t.cases lut).2 0) = true)
    (hf1 : test_face cube (t.test7 (t.cases lut).2 1) = true)
    (hf2 : test_face cube (t.test7 (t.cases lut).2 2) = true)
    (hi : test_interior cube 7 (t.test7 (t.cases lut).2 4) (t.test7 (t.cases lut).2 3) = true) :
    dispatch t cube lut = [⟨t.tiling7_4_2 (t.cases lut).2, 9, false⟩] := by
  unfold dispatch
  rw [h7]
  simp only [hf0, hf1, hf2, hi, if_true]

/-- Witness for C3's amended theorem at the concrete stand-in tables and
cube. -/
theorem C3_amended_witness :
    ((tablesC3.cases 1).1 = 7 ∧
      test_face cubeC3 (tablesC3.test7 (tablesC3.cases 1).2 0) = true ∧
      test_interior cubeC3 7 (tablesC3.test7 (tablesC3.cases 1).2 4)
        (tablesC3.test7 (tablesC3.cases 1).2 3) = true) ∧
    dispatch tablesC3 cubeC3 1 = [⟨tablesC3.tiling7_4_2 (tablesC3.cases 1).2, 9, false⟩] :=
  ⟨⟨rfl, cubeC3_face, cubeC3_interior⟩,
   C3_amended tablesC3 cubeC3 1 rfl cubeC3_face cubeC3_face cubeC3_face cubeC3_interior⟩

/-- Modelled from the spec: stand-in tables for claim C4 — `casesClassic`
holds a single `-1`-terminated triangle for every case index, while the
topological `cases` table maps every index to the empty base case 0, so
the two modes are distinguishable by their triangle output. -/
def tablesC4 : Tables := { casesClassic := fun _ => [0, 0, 0, -1] }

/-- Counterexample to C4: after `set_method(false)` the flag is false and
`process_cube` does *not* tile from `casesClassic` (it emits the
topological dispatch, here empty), while after `set_method(true)` it does
emit the classical entry's one triangle — so `original = false` selects
the topological mode and `original = true` the classical one, the
opposite of the claim's assignment. -/
theorem C4_counterexample :
    (set_method (mc_new 2 2 2 fun _ _ _ => 1) false).originalMC = false ∧
    (process_cube tablesC4 (set_method (mc_new 2 2 2 fun _ _ _ => 1) false)
      0 0 0 (fun _ => 1) 0).ntrigs = 0 ∧
    (process_cube tablesC4 (set_method (mc_new 2 2 2 fun _ _ _ => 1) true)
      0 0 0 (fun _ => 1) 0).ntrigs = 1 ∧
    classic_nt (tablesC4.casesClassic 0) = 1 := by decide

/-- C4 as amended: calling `set_method` with `original = true` selects
the classical (non-topological) mode that tiles each cell directly from
`casesClassic`, and `original = false` selects the topological mode,
topological (flag false) being the default after construction. -/
theorem C4_amended :
    (∀ (sx sy sz : ℕ) (data : ℕ → ℕ → ℕ → ℚ), (mc_new sx sy sz data).originalMC = false) ∧
    (∀ (s : MCState) (b : Bool), (set_method s b).originalMC = b) ∧
    (∀ (t : Tables) (s : MCState) (i j k : ℕ) (cube : Fin 8 → ℚ) (lut : ℕ),
      process_cube t (set_method s true) i j k cube lut =
        add_triangle (set_method s true) i j k (t.casesClassic lut)
          (classic_nt (t.casesClassic lut)) (-1) ∧
      process_cube t (set_method s false) i j k cube lut =
        apply_emissions (set_method s false) i j k (dispatch t cube lut)) :=
  ⟨fun _ _ _ _ => rfl, fun _ _ => rfl, fun _ _ _ _ _ _ _ => ⟨rfl, rfl⟩⟩

/-- Two states share the grid configuration: same dimensions, same sample
data, same mode flag — exactly the fields no mesh operation writes. -/
def same_grid (a b : MCState) : Prop :=
  a.size_x = b.size_x ∧ a.size_y = b.size_y ∧ a.size_z = b.size_z ∧
  a.data = b.data ∧ a.originalMC = b.originalMC

theorem same_grid_refl (s : MCState) : same_grid s s := ⟨rfl, rfl, rfl, rfl, rfl⟩

theorem same_grid_trans {a b c : MCState} (h1 : same_grid a b) (h2 : same_grid b c) :
    same_grid a c :=
  ⟨h1.1.trans h2.1, h1.2.1.trans h2.2.1, h1.2.2.1.trans h2.2.2.1,
   h1.2.2.2.1.trans h2.2.2.2.1, h1.2.2.2.2.trans h2.2.2.2.2⟩

/-- Folding a grid-preserving step preserves the grid. -/
theorem foldl_same_grid {α : Type} {f : MCState → α → MCState}
    (h : ∀ s a, same_grid (f s a) s) :
    ∀ (L : List α) (s : MCState), same_grid (L.foldl f s) s := by
  intro L
  induction L with
  | nil => exact fun s => same_grid_refl s
  | cons a L ih => exact fun s => same_grid_trans (ih (f s a)) (h s a)


/-!
Projection lemmas: each mesh-writing primitive leaves the grid
configuration fields (dimensions, sample data, mode flag) untouched.
-/

@[simp] theorem add_x_vertex_size_x (s : MCState) (i j k : ℕ) (c0 c1 : ℚ) :
    (add_x_vertex s i j k c0 c1).size_x = s.size_x := rfl

@[simp] theorem add_x_vertex_size_y (s : MCState) (i j k : ℕ) (c0 c1 : ℚ) :
    (add_x_vertex s i j k c0 c1).size_y = s.size_y := rfl

@[simp] theorem add_x_vertex_size_z (s : MCState) (i j k : ℕ) (c0 c1 : ℚ) :
    (add_x_vertex s i j k c0 c1).size_z = s.size_z := rfl

@[simp] theorem add_x_vertex_data (s : MCState) (i j k : ℕ) (c0 c1 : ℚ) :
    (add_x_vertex s i j k c0 c1).data = s.data := rfl

@[simp] theorem add_x_vertex_originalMC (s : MCState) (i j k : ℕ) (c0 c1 : ℚ) :
    (add_x_vertex s i j k c0 c1).originalMC = s.originalMC := rfl

@[simp] theorem add_y_vertex_size_x (s : MCState) (i j k : ℕ) (c0 c3 : ℚ) :
    (add_y_vertex s i j k c0 c3).size_x = s.size_x := rfl

@[simp] theorem add_y_vertex_size_y (s : MCState) (i j k : ℕ) (c0 c3 : ℚ) :
    (add_y_vertex s i j k c0 c3).size_y = s.size_y := rfl

@[simp] theorem add_y_vertex_size_z (s : MCState) (i j k : ℕ) (c0 c3 : ℚ) :
    (add_y_vertex s i j k c0 c3).size_z = s.size_z := rfl

@[simp] theorem add_y_vertex_data (s : MCState) (i j k : ℕ) (c0 c3 : ℚ) :
    (add_y_vertex s i j k c0 c3).data = s.data := rfl

@[simp] theorem add_y_vertex_originalMC (s : MCState) (i j k : ℕ) (c0 c3 : ℚ) :
    (add_y_vertex s i j k c0 c3).originalMC = s.originalMC := rfl

@[simp] theorem add_z_vertex_size_x (s : MCState) (i j k : ℕ) (c0 c4 : ℚ) :
    (add_z_vertex s i j k c0 c4).size_x = s.size_x := rfl

@[simp] theorem add_z_vertex_size_y (s : MCState) (i j k : ℕ) (c0 c4 : ℚ) :
    (add_z_vertex s i j k c0 c4).size_y = s.size_y := rfl

@[simp] theorem add_z_vertex_size_z (s : MCState) (i j k : ℕ) (c0 c4 : ℚ) :
    (add_z_vertex s i j k c0 c4).size_z = s.size_z := rfl

@[simp] theorem add_z_vertex_data (s : MCState) (i j k : ℕ) (c0 c4 : ℚ) :
    (add_z_vertex s i j k c0 c4).data = s.data := rfl

@[simp] theorem add_z_vertex_originalMC (s : MCState) (i j k : ℕ) (c0 c4 : ℚ) :
    (add_z_vertex s i j k c0 c4).originalMC = s.originalMC := rfl

@[simp] theorem set_x_vert_size_x (s : MCState) (val : ℤ) (i j k : ℕ) :
    (set_x_vert s val i j k).size_x = s.size_x := rfl

@[simp] theorem set_x_vert_size_y (s : MCState) (val : ℤ) (i j k : ℕ) :
    (set_x_vert s val i j k).size_y = s.size_y := rfl

@[simp] theorem set_x_vert_size_z (s : MCState) (val : ℤ) (i j k : ℕ) :
    (set_x_vert s val i j k).size_z = s.size_z := rfl

@[simp] theorem set_x_vert_data (s : MCState) (val : ℤ) (i j k : ℕ) :
    (set_x_vert s val i j k).data = s.data := rfl

@[simp] theorem set_x_vert_originalMC (s : MCState) (val : ℤ) (i j k : ℕ) :
    (set_x_vert s val i j k).originalMC = s.originalMC := rfl

@[simp] theorem set_y_vert_size_x (s : MCState) (val : ℤ) (i j k : ℕ) :
    (set_y_vert s val i j k).size_x = s.size_x := rfl

@[simp] theorem set_y_vert_size_y (s : MCState) (val : ℤ) (i j k : ℕ) :
    (set_y_vert s val i j k).size_y = s.size_y := rfl

@[simp] theorem set_y_vert_size_z (s : MCState) (val : ℤ) (i j k : ℕ) :
    (set_y_vert s val i j k).size_z = s.size_z := rfl

@[simp] theorem set_y_vert_data (s : MCState) (val : ℤ) (i j k : ℕ) :
    (set_y_vert s val i j k).data = s.data := rfl

@[simp] theorem set_y_vert_originalMC (s : MCState) (val : ℤ) (i j k : ℕ) :
    (set_y_vert s val i j k).originalMC = s.originalMC := rfl

@[simp] theorem set_z_vert_size_x (s : MCState) (val : ℤ) (i j k : ℕ) :
    (set_z_vert s val i j k).size_x = s.size_x := rfl

@[simp] theorem set_z_vert_size_y (s : MCState) (val : ℤ) (i j k : ℕ) :
    (set_z_vert s val i j k).size_y = s.size_y := rfl

@[simp] theorem set_z_vert_size_z (s : MCState) (val : ℤ) (i j k : ℕ) :
    (set_z_vert s val i j k).size_z = s.size_z := rfl

@[simp] theorem set_z_vert_data (s : MCState) (val : ℤ) (i j k : ℕ) :
    (set_z_vert s val i j k).data = s.data := rfl

@[simp] theorem set_z_vert_originalMC (s : MCState) (val : ℤ) (i j k : ℕ) :
    (set_z_vert s val i j k).originalMC = s.originalMC := rfl

@[simp] theorem add_c_vertex_size_x (s : MCState) (i j k : ℕ) :
    (add_c_vertex s i j k).size_x = s.size_x := rfl

@[simp] theorem add_c_vertex_size_y (s : MCState) (i j k : ℕ) :
    (add_c_vertex s i j k).size_y = s.size_y := rfl

@[simp] theorem add_c_vertex_size_z (s : MCState) (i j k : ℕ) :
    (add_c_vertex s i j k).size_z = s.size_z := rfl

@[simp] theorem add_c_vertex_data (s : MCState) (i j k : ℕ) :
    (add_c_vertex s i j k).data = s.data := rfl

@[simp] theorem add_c_vertex_originalMC (s : MCState) (i j k : ℕ) :
    (add_c_vertex s i j k).originalMC = s.originalMC := rfl

@[simp] theorem add_triangle_size_x (s : MCState) (i j k : ℕ) (trig : List ℤ) (n : ℕ) (v12 : ℤ) :
    (add_triangle s i j k trig n v12).size_x = s.size_x := rfl

@[simp] theorem add_triangle_size_y (s : MCState) (i j k : ℕ) (trig : List ℤ) (n : ℕ) (v12 : ℤ) :
    (add_triangle s i j k trig n v12).size_y = s.size_y := rfl

@[simp] theorem add_triangle_size_z (s : MCState) (i j k : ℕ) (trig : List ℤ) (n : ℕ) (v12 : ℤ) :
    (add_triangle s i j k trig n v12).size_z = s.size_z := rfl

@[simp] theorem add_triangle_data (s : MCState) (i j k : ℕ) (trig : List ℤ) (n : ℕ) (v12 : ℤ) :
    (add_triangle s i j k trig n v12).data = s.data := rfl

@[simp] theorem add_triangle_originalMC (s : MCState) (i j k : ℕ) (trig : List ℤ) (n : ℕ) (v12 : ℤ) :
    (add_triangle s i j k trig n v12).originalMC = s.originalMC := rfl

theorem cip_step_same_grid (iso : ℚ) (s : MCState) (q : ℕ × ℕ × ℕ) :
    same_grid (cip_step iso s q) s := by
  obtain ⟨i, j, k⟩ := q
  unfold cip_step
  dsimp only
  split_ifs
  all_goals refine ⟨?_, ?_, ?_, ?_, ?_⟩
  all_goals simp only [add_x_vertex_size_x, add_x_vertex_size_y, add_x_vertex_size_z, add_x_vertex_data, add_x_vertex_originalMC, add_y_vertex_size_x, add_y_vertex_size_y, add_y_vertex_size_z, add_y_vertex_data, add_y_vertex_originalMC, add_z_vertex_size_x, add_z_vertex_size_y, add_z_vertex_size_z, add_z_vertex_data, add_z_vertex_originalMC, set_x_vert_size_x, set_x_vert_size_y, set_x_vert_size_z, set_x_vert_data, set_x_vert_originalMC, set_y_vert_size_x, set_y_vert_size_y, set_y_vert_size_z, set_y_vert_data, set_y_vert_originalMC, set_z_vert_size_x, set_z_vert_size_y, set_z_vert_size_z, set_z_vert_data, set_z_vert_originalMC]

theorem apply_emission_same_grid (s : MCState) (i j k : ℕ) (e : Emission) :
    same_grid (apply_emission s i j k e) s := by
  unfold apply_emission
  split_ifs <;> refine ⟨?_, ?_, ?_, ?_, ?_⟩ <;>
    simp only [add_triangle_size_x, add_triangle_size_y, add_triangle_size_z,
      add_triangle_data, add_triangle_originalMC, add_c_vertex_size_x, add_c_vertex_size_y,
      add_c_vertex_size_z, add_c_vertex_data, add_c_vertex_originalMC]

theorem process_cube_same_grid (t : Tables) (s : MCState) (i j k : ℕ)
    (cube : Fin 8 → ℚ) (lut : ℕ) : same_grid (process_cube t s i j k cube lut) s := by
  unfold process_cube
  split_ifs
  · exact ⟨rfl, rfl, rfl, rfl, rfl⟩
  · exact foldl_same_grid (fun m e => apply_emission_same_grid m i j k e) _ s

theorem cell_step_same_grid (t : Tables) (iso : ℚ) (s : MCState) (q : ℕ × ℕ × ℕ) :
    same_grid (cell_step t iso s q) s := by
  obtain ⟨i, j, k⟩ := q
  exact process_cube_same_grid t s i j k _ _

/-- `run` never writes the grid configuration fields. -/
theorem run_same_grid (t : Tables) (iso : ℚ) (s : MCState) : same_grid (run t iso s) s := by
  unfold run compute_intersection_points
  exact same_grid_trans (foldl_same_grid (cell_step_same_grid t iso) _ _)
    (foldl_same_grid (cip_step_same_grid iso) _ _)

/-- `init_all` depends only on the grid configuration fields. -/
theorem init_all_congr {a b : MCState} (h : same_grid a b) : init_all a = init_all b := by
  unfold init_all
  rw [h.1, h.2.1, h.2.2.1, h.2.2.2.1, h.2.2.2.2]

/-- A 2×1×1 grid with one sign change on its single x-edge: one
extraction vertex, no cells. -/
def gridC5 : MCState := mc_new 2 1 1 (fun i _ _ => if i = 0 then -1 else 1)

/-- Counterexample to C5: `run` performs no reset — on `gridC5` a single
run produces `nverts = 1` but running twice accumulates to `nverts = 2`
(the reset the spec attributes to `run` actually lives in `init_all`),
so two runs do not leave the same vertex sequence as one. -/
theorem C5_counterexample :
    (run {} 0 gridC5).nverts = 1 ∧ (run {} 0 (run {} 0 gridC5)).nverts = 2 := by
  with_unfolding_all decide

/-- C5 as amended: `run` itself does not reset the mesh (a second call
appends the whole extraction again); the reset lives in `init_all`, and
calling `init_all` before each `run` makes a repeated
`init_all`-then-`run` reproduce exactly the state — hence the vertex and
triangle sequences, `nverts` and `ntrigs` — of a single one, for every
table assignment, isovalue and starting state. -/
theorem C5_amended (t : Tables) (iso : ℚ) (s : MCState) :
    run t iso (init_all (run t iso (init_all s))) = run t iso (init_all s) := by
  have h2 : init_all (run t iso (init_all s)) = init_all (init_all s) :=
    init_all_congr (run_same_grid t iso (init_all s))
  rw [h2]
  rfl

/-!
Bit extraction from the accumulated case index: bit `p` of `cell_lut`
is exactly the sign classification `0 < cube p`.
-/

theorem cell_lut_bit0 (cube : Fin 8 → ℚ) :
    (cell_lut cube).testBit 0 = decide (0 < cube 0) := by
  unfold cell_lut
  by_cases h0 : 0 < cube 0 <;> by_cases h1 : 0 < cube 1 <;> by_cases h2 : 0 < cube 2 <;>
  by_cases h3 : 0 < cube 3 <;> by_cases h4 : 0 < cube 4 <;> by_cases h5 : 0 < cube 5 <;>
  by_cases h6 : 0 < cube 6 <;> by_cases h7 : 0 < cube 7 <;>
  simp [h0, h1, h2, h3, h4, h5, h6, h7] <;> decide

theorem cell_lut_bit1 (cube : Fin 8 → ℚ) :
    (cell_lut cube).testBit 1 = decide (0 < cube 1) := by
  unfold cell_lut
  by_cases h0 : 0 < cube 0 <;> by_cases h1 : 0 < cube 1 <;> by_cases h2 : 0 < cube 2 <;>
  by_cases h3 : 0 < cube 3 <;> by_cases h4 : 0 < cube 4 <;> by_cases h5 : 0 < cube 5 <;>
  by_cases h6 : 0 < cube 6 <;> by_cases h7 : 0 < cube 7 <;>
  simp [h0, h1, h2, h3, h4, h5, h6, h7] <;> decide

theorem cell_lut_bit2 (cube : Fin 8 → ℚ) :
    (cell_lut cube).testBit 2 = decide (0 < cube 2) := by
  unfold cell_lut
  by_cases h0 : 0 < cube 0 <;> by_cases h1 : 0 < cube 1 <;> by_cases h2 : 0 < cube 2 <;>
  by_cases h3 : 0 < cube 3 <;> by_cases h4 : 0 < cube 4 <;> by_cases h5 : 0 < cube 5 <;>
  by_cases h6 : 0 < cube 6 <;> by_cases h7 : 0 < cube 7 <;>
  simp [h0, h1, h2, h3, h4, h5, h6, h7] <;> decide

theorem cell_lut_bit3 (cube : Fin 8 → ℚ) :
    (cell_lut cube).testBit 3 = decide (0 < cube 3) := by
  unfold cell_lut
  by_cases h0 : 0 < cube 0 <;> by_cases h1 : 0 < cube 1 <;> by_cases h2 : 0 < cube 2 <;>
  by_cases h3 : 0 < cube 3 <;> by_cases h4 : 0 < cube 4 <;> by_cases h5 : 0 < cube 5 <;>
  by_cases h6 : 0 < cube 6 <;> by_cases h7 : 0 < cube 7 <;>
  simp [h0, h1, h2, h3, h4, h5, h6, h7] <;> decide

theorem cell_lut_bit4 (cube : Fin 8 → ℚ) :
    (cell_lut cube).testBit 4 = decide (0 < cube 4) := by
  unfold cell_lut
  by_cases h0 : 0 < cube 0 <;> by_cases h1 : 0 < cube 1 <;> by_cases h2 : 0 < cube 2 <;>
  by_cases h3 : 0 < cube 3 <;> by_cases h4 : 0 < cube 4 <;> by_cases h5 : 0 < cube 5 <;>
  by_cases h6 : 0 < cube 6 <;> by_cases h7 : 0 < cube 7 <;>
  simp [h0, h1, h2, h3, h4, h5, h6, h7] <;> decide

theorem cell_lut_bit5 (cube : Fin 8 → ℚ) :
    (cell_lut cube).testBit 5 = decide (0 < cube 5) := by
  unfold cell_lut
  by_cases h0 : 0 < cube 0 <;> by_cases h1 : 0 < cube 1 <;> by_cases h2 : 0 < cube 2 <;>
  by_cases h3 : 0 < cube 3 <;> by_cases h4 : 0 < cube 4 <;> by_cases h5 : 0 < cube 5 <;>
  by_cases h6 : 0 < cube 6 <;> by_cases h7 : 0 < cube 7 <;>
  simp [h0, h1, h2, h3, h4, h5, h6, h7] <;> decide

theorem cell_lut_bit6 (cube : Fin 8 → ℚ) :
    (cell_lut cube).testBit 6 = decide (0 < cube 6) := by
  unfold cell_lut
  by_cases h0 : 0 < cube 0 <;> by_cases h1 : 0 < cube 1 <;> by_cases h2 : 0 < cube 2 <;>
  by_cases h3 : 0 < cube 3 <;> by_cases h4 : 0 < cube 4 <;> by_cases h5 : 0 < cube 5 <;>
  by_cases h6 : 0 < cube 6 <;> by_cases h7 : 0 < cube 7 <;>
  simp [h0, h1, h2, h3, h4, h5, h6, h7] <;> decide

theorem cell_lut_bit7 (cube : Fin 8 → ℚ) :
    (cell_lut cube).testBit 7 = decide (0 < cube 7) := by
  unfold cell_lut
  by_cases h0 : 0 < cube 0 <;> by_cases h1 : 0 < cube 1 <;> by_cases h2 : 0 < cube 2 <;>
  by_cases h3 : 0 < cube 3 <;> by_cases h4 : 0 < cube 4 <;> by_cases h5 : 0 < cube 5 <;>
  by_cases h6 : 0 < cube 6 <;> by_cases h7 : 0 < cube 7 <;>
  simp [h0, h1, h2, h3, h4, h5, h6, h7] <;> decide

/-- Bit `p` of the case index is set iff corner `p` is classified
positive. -/
theorem cell_lut_testBit (cube : Fin 8 → ℚ) (p : Fin 8) :
    (cell_lut cube).testBit p.val = decide (0 < cube p) := by
  fin_cases p
  · exact cell_lut_bit0 cube
  · exact cell_lut_bit1 cube
  · exact cell_lut_bit2 cube
  · exact cell_lut_bit3 cube
  · exact cell_lut_bit4 cube
  · exact cell_lut_bit5 cube
  · exact cell_lut_bit6 cube
  · exact cell_lut_bit7 cube

/-- C7: for every loaded corner during both passes, after the
ε-perturbation the value `cube[p] = sample − τ` is non-zero (stated for
`perturb` itself and for the cell pass's corner loader `cell_cube`, which
the edge-intersection pass shares through `perturb`); consequently every
sign test against zero is strict, and on every sign-changing edge the
interpolation divisor `cube[p0] − cube[p1]` is non-zero. -/
theorem C7_perturbed_nonzero :
    (∀ v : ℚ, perturb v ≠ 0) ∧
    (∀ (data : ℕ → ℕ → ℕ → ℚ) (iso : ℚ) (i j k : ℕ) (p : Fin 8),
      cell_cube data iso i j k p ≠ 0) ∧
    (∀ c0 c1 : ℚ, c0 * c1 < 0 → c0 - c1 ≠ 0) := by
  have hp : ∀ v : ℚ, perturb v ≠ 0 := by
    intro v
    unfold perturb
    split_ifs with h
    · norm_num [eps]
    · intro hv
      rw [hv] at h
      simp [eps] at h
  refine ⟨hp, fun data iso i j k p => hp _, fun c0 c1 h heq => ?_⟩
  have : c0 = c1 := by linarith [sub_eq_zero.mp heq]
  rw [this] at h
  nlinarith [mul_self_nonneg c1]

/-- Witness for C7: `perturb 0 ≠ 0`, a concrete corner of a concrete
cell, and the divisor on a sign-changing edge `(-1, 1)`. -/
theorem C7_perturbed_nonzero_witness :
    perturb 0 ≠ 0 ∧ cell_cube (fun _ _ _ => 1) 0 0 0 0 0 ≠ 0 ∧
    ((-1 : ℚ) * 1 < 0 ∧ (-1 : ℚ) - 1 ≠ 0) :=
  ⟨C7_perturbed_nonzero.1 0, C7_perturbed_nonzero.2.1 (fun _ _ _ => 1) 0 0 0 0 0,
   ⟨by norm_num, C7_perturbed_nonzero.2.2 (-1) 1 (by norm_num)⟩⟩

/-- C9: every corner value `cube[p] = sample − τ` whose absolute value is
strictly below machine epsilon of `float` — including small strictly
negative values, not only exact zeros — is replaced by `+ε`, so every
such corner is classified as positive: its value becomes `ε > 0`, its
bit is set in the case index `cell_lut`, and it counts as `cube[p] > 0`
(the comparison both passes use). -/
theorem C9_small_values_become_positive :
    (∀ v : ℚ, |v| < eps → perturb v = eps ∧ 0 < perturb v) ∧
    (∀ (data : ℕ → ℕ → ℕ → ℚ) (iso : ℚ) (i j k : ℕ) (p : Fin 8),
      |data (i + ((p.val ^^^ (p.val >>> 1)) &&& 1)) (j + ((p.val >>> 1) &&& 1))
        (k + ((p.val >>> 2) &&& 1)) - iso| < eps →
      cell_cube data iso i j k p = eps ∧ 0 < cell_cube data iso i j k p ∧
      (cell_lut (cell_cube data iso i j k)).testBit p.val = true) := by
  have hbase : ∀ v : ℚ, |v| < eps → perturb v = eps ∧ 0 < perturb v := by
    intro v h
    unfold perturb
    rw [if_pos h]
    exact ⟨rfl, by norm_num [eps]⟩
  refine ⟨hbase, fun data iso i j k p h => ?_⟩
  have hc : cell_cube data iso i j k p = eps ∧ 0 < cell_cube data iso i j k p := hbase _ h
  refine ⟨hc.1, hc.2, ?_⟩
  rw [cell_lut_testBit]
  simp [hc.2]

/-- Witness for C9 at `v = -ε/2` (a small strictly negative value) and a
concrete grid whose corner 3 sits within ε of the isovalue. -/
theorem C9_small_values_become_positive_witness :
    (|(-(eps/2) : ℚ)| < eps ∧ perturb (-(eps/2)) = eps ∧ 0 < perturb (-(eps/2))) ∧
    (|(fun _ _ _ => -(eps/2) : ℕ → ℕ → ℕ → ℚ) (0 + ((3 ^^^ (3 >>> 1)) &&& 1))
        (0 + ((3 >>> 1) &&& 1)) (0 + ((3 >>> 2) &&& 1)) - 0| < eps ∧
      (cell_lut (cell_cube (fun _ _ _ => -(eps/2)) 0 0 0 0)).testBit 3 = true) := by
  have h1 : |(-(eps/2) : ℚ)| < eps := by
    rw [abs_lt]
    constructor <;> norm_num [eps]
  have h2 : |(fun _ _ _ => -(eps/2) : ℕ → ℕ → ℕ → ℚ) (0 + ((3 ^^^ (3 >>> 1)) &&& 1))
      (0 + ((3 >>> 1) &&& 1)) (0 + ((3 >>> 2) &&& 1)) - 0| < eps := by
    simpa using h1
  exact ⟨⟨h1, C9_small_values_become_positive.1 (-(eps/2)) h1⟩,
    ⟨h2, (C9_small_values_become_positive.2 (fun _ _ _ => -(eps/2)) 0 0 0 0 3 h2).2.2⟩⟩

/-- On a sign-changing edge the interpolation parameter
`u = c0 / (c0 - c1)` lies strictly inside `(0, 1)`. -/
theorem interp_param_bounds (a b : ℚ) (h : a * b < 0) :
    0 < a / (a - b) ∧ a / (a - b) < 1 := by
  rcases mul_neg_iff.mp h with ⟨ha, hb⟩ | ⟨ha, hb⟩
  · exact ⟨div_pos ha (by linarith), (div_lt_one (by linarith)).mpr (by linarith)⟩
  · exact ⟨div_pos_iff.mpr (Or.inr ⟨ha, by linarith⟩),
      div_lt_one_iff.mpr (Or.inr (Or.inr ⟨by linarith, by linarith⟩))⟩

/-- C10: every vertex created by the edge-intersection pass lies strictly
inside its grid edge: when the two perturbed endpoint values have
strictly opposite signs (the only situation in which
`compute_intersection_points` calls the `add_*_vertex` helpers), the
interpolation parameter `u = cube[0] / (cube[0] − cube[other])`
satisfies `0 < u < 1`, and the appended vertex of `add_x_vertex` has
x-coordinate strictly between `i` and `i+1` with `y = j`, `z = k`
exactly — and analogously for the y- and z-edge helpers. -/
theorem C10_vertex_strictly_inside (s : MCState) (i j k : ℕ) (c0 c1 c3 c4 : ℚ) :
    (c0 * c1 < 0 →
      0 < c0 / (c0 - c1) ∧ c0 / (c0 - c1) < 1 ∧
      ∃ v : Vertex, (add_x_vertex s i j k c0 c1).vertices = s.vertices ++ [v] ∧
        v.x = (i : ℚ) + c0 / (c0 - c1) ∧ v.y = (j : ℚ) ∧ v.z = (k : ℚ) ∧
        (i : ℚ) < v.x ∧ v.x < (i : ℚ) + 1) ∧
    (c0 * c3 < 0 →
      0 < c0 / (c0 - c3) ∧ c0 / (c0 - c3) < 1 ∧
      ∃ v : Vertex, (add_y_vertex s i j k c0 c3).vertices = s.vertices ++ [v] ∧
        v.y = (j : ℚ) + c0 / (c0 - c3) ∧ v.x = (i : ℚ) ∧ v.z = (k : ℚ) ∧
        (j : ℚ) < v.y ∧ v.y < (j : ℚ) + 1) ∧
    (c0 * c4 < 0 →
      0 < c0 / (c0 - c4) ∧ c0 / (c0 - c4) < 1 ∧
      ∃ v : Vertex, (add_z_vertex s i j k c0 c4).vertices = s.vertices ++ [v] ∧
        v.z = (k : ℚ) + c0 / (c0 - c4) ∧ v.x = (i : ℚ) ∧ v.y = (j : ℚ) ∧
        (k : ℚ) < v.z ∧ v.z < (k : ℚ) + 1) := by
  refine ⟨fun h => ?_, fun h => ?_, fun h => ?_⟩ <;>
  · obtain ⟨hu0, hu1⟩ := interp_param_bounds _ _ h
    refine ⟨hu0, hu1, _, rfl, rfl, rfl, rfl, ?_, ?_⟩ <;>
    · dsimp only
      linarith

/-- Witness for C10 on the endpoint pairs `(-1, 1)` for all three edge
directions, at cell corner `(0,0,0)` of a concrete state. -/
theorem C10_vertex_strictly_inside_witness :
    ((-1 : ℚ) * 1 < 0) ∧
    (0 < (-1 : ℚ) / (-1 - 1) ∧ (-1 : ℚ) / (-1 - 1) < 1 ∧
      ∃ v : Vertex, (add_x_vertex (mc_new 2 1 1 fun _ _ _ => 0) 0 0 0 (-1) 1).vertices =
          (mc_new 2 1 1 fun _ _ _ => 0).vertices ++ [v] ∧
        v.x = ((0 : ℕ) : ℚ) + (-1 : ℚ) / (-1 - 1) ∧ v.y = ((0 : ℕ) : ℚ) ∧
        v.z = ((0 : ℕ) : ℚ) ∧ ((0 : ℕ) : ℚ) < v.x ∧ v.x < ((0 : ℕ) : ℚ) + 1) ∧
    (0 < (-1 : ℚ) / (-1 - 1) ∧ (-1 : ℚ) / (-1 - 1) < 1 ∧
      ∃ v : Vertex, (add_y_vertex (mc_new 2 1 1 fun _ _ _ => 0) 0 0 0 (-1) 1).vertices =
          (mc_new 2 1 1 fun _ _ _ => 0).vertices ++ [v] ∧
        v.y = ((0 : ℕ) : ℚ) + (-1 : ℚ) / (-1 - 1) ∧ v.x = ((0 : ℕ) : ℚ) ∧
        v.z = ((0 : ℕ) : ℚ) ∧ ((0 : ℕ) : ℚ) < v.y ∧ v.y < ((0 : ℕ) : ℚ) + 1) ∧
    (0 < (-1 : ℚ) / (-1 - 1) ∧ (-1 : ℚ) / (-1 - 1) < 1 ∧
      ∃ v : Vertex, (add_z_vertex (mc_new 2 1 1 fun _ _ _ => 0) 0 0 0 (-1) 1).vertices =
          (mc_new 2 1 1 fun _ _ _ => 0).vertices ++ [v] ∧
        v.z = ((0 : ℕ) : ℚ) + (-1 : ℚ) / (-1 - 1) ∧ v.x = ((0 : ℕ) : ℚ) ∧
        v.y = ((0 : ℕ) : ℚ) ∧ ((0 : ℕ) : ℚ) < v.z ∧ v.z < ((0 : ℕ) : ℚ) + 1) :=
  ⟨by norm_num,
   (C10_vertex_strictly_inside (mc_new 2 1 1 fun _ _ _ => 0) 0 0 0 (-1) 1 1 1).1 (by norm_num),
   (C10_vertex_strictly_inside (mc_new 2 1 1 fun _ _ _ => 0) 0 0 0 (-1) 1 1 1).2.1 (by norm_num),
   (C10_vertex_strictly_inside (mc_new 2 1 1 fun _ _ _ => 0) 0 0 0 (-1) 1 1 1).2.2 (by norm_num)⟩

/-!
Projection lemmas for the interning maps and the vertex counter.
-/

@[simp] theorem add_x_vertex_x_verts (s : MCState) (i j k : ℕ) (c0 c1 : ℚ) :
    (add_x_vertex s i j k c0 c1).x_verts = s.x_verts := rfl

@[simp] theorem add_x_vertex_y_verts (s : MCState) (i j k : ℕ) (c0 c1 : ℚ) :
    (add_x_vertex s i j k c0 c1).y_verts = s.y_verts := rfl

@[simp] theorem add_x_vertex_z_verts (s : MCState) (i j k : ℕ) (c0 c1 : ℚ) :
    (add_x_vertex s i j k c0 c1).z_verts = s.z_verts := rfl

@[simp] theorem add_x_vertex_nverts (s : MCState) (i j k : ℕ) (c0 c1 : ℚ) :
    (add_x_vertex s i j k c0 c1).nverts = s.nverts + 1 := rfl

@[simp] theorem add_y_vertex_x_verts (s : MCState) (i j k : ℕ) (c0 c3 : ℚ) :
    (add_y_vertex s i j k c0 c3).x_verts = s.x_verts := rfl

@[simp] theorem add_y_vertex_y_verts (s : MCState) (i j k : ℕ) (c0 c3 : ℚ) :
    (add_y_vertex s i j k c0 c3).y_verts = s.y_verts := rfl

@[simp] theorem add_y_vertex_z_verts (s : MCState) (i j k : ℕ) (c0 c3 : ℚ) :
    (add_y_vertex s i j k c0 c3).z_verts = s.z_verts := rfl

@[simp] theorem add_y_vertex_nverts (s : MCState) (i j k : ℕ) (c0 c3 : ℚ) :
    (add_y_vertex s i j k c0 c3).nverts = s.nverts + 1 := rfl

@[simp] theorem add_z_vertex_x_verts (s : MCState) (i j k : ℕ) (c0 c4 : ℚ) :
    (add_z_vertex s i j k c0 c4).x_verts = s.x_verts := rfl

@[simp] theorem add_z_vertex_y_verts (s : MCState) (i j k : ℕ) (c0 c4 : ℚ) :
    (add_z_vertex s i j k c0 c4).y_verts = s.y_verts := rfl

@[simp] theorem add_z_vertex_z_verts (s : MCState) (i j k : ℕ) (c0 c4 : ℚ) :
    (add_z_vertex s i j k c0 c4).z_verts = s.z_verts := rfl

@[simp] theorem add_z_vertex_nverts (s : MCState) (i j k : ℕ) (c0 c4 : ℚ) :
    (add_z_vertex s i j k c0 c4).nverts = s.nverts + 1 := rfl

@[simp] theorem add_c_vertex_x_verts (s : MCState) (i j k : ℕ) :
    (add_c_vertex s i j k).x_verts = s.x_verts := rfl

@[simp] theorem add_c_vertex_y_verts (s : MCState) (i j k : ℕ) :
    (add_c_vertex s i j k).y_verts = s.y_verts := rfl

@[simp] theorem add_c_vertex_z_verts (s : MCState) (i j k : ℕ) :
    (add_c_vertex s i j k).z_verts = s.z_verts := rfl

@[simp] theorem add_c_vertex_nverts (s : MCState) (i j k : ℕ) :
    (add_c_vertex s i j k).nverts = s.nverts + 1 := rfl

@[simp] theorem set_x_vert_x_verts (s : MCState) (val : ℤ) (i j k : ℕ) (p : ℕ × ℕ × ℕ) :
    (set_x_vert s val i j k).x_verts p = if p = (i, j, k) then val else s.x_verts p := rfl

@[simp] theorem set_x_vert_y_verts (s : MCState) (val : ℤ) (i j k : ℕ) :
    (set_x_vert s val i j k).y_verts = s.y_verts := rfl

@[simp] theorem set_x_vert_z_verts (s : MCState) (val : ℤ) (i j k : ℕ) :
    (set_x_vert s val i j k).z_verts = s.z_verts := rfl

@[simp] theorem set_x_vert_nverts (s : MCState) (val : ℤ) (i j k : ℕ) :
    (set_x_vert s val i j k).nverts = s.nverts := rfl

@[simp] theorem set_y_vert_y_verts (s : MCState) (val : ℤ) (i j k : ℕ) (p : ℕ × ℕ × ℕ) :
    (set_y_vert s val i j k).y_verts p = if p = (i, j, k) then val else s.y_verts p := rfl

@[simp] theorem set_y_vert_x_verts (s : MCState) (val : ℤ) (i j k : ℕ) :
    (set_y_vert s val i j k).x_verts = s.x_verts := rfl

@[simp] theorem set_y_vert_z_verts (s : MCState) (val : ℤ) (i j k : ℕ) :
    (set_y_vert s val i j k).z_verts = s.z_verts := rfl

@[simp] theorem set_y_vert_nverts (s : MCState) (val : ℤ) (i j k : ℕ) :
    (set_y_vert s val i j k).nverts = s.nverts := rfl

@[simp] theorem set_z_vert_z_verts (s : MCState) (val : ℤ) (i j k : ℕ) (p : ℕ × ℕ × ℕ) :
    (set_z_vert s val i j k).z_verts p = if p = (i, j, k) then val else s.z_verts p := rfl

@[simp] theorem set_z_vert_x_verts (s : MCState) (val : ℤ) (i j k : ℕ) :
    (set_z_vert s val i j k).x_verts = s.x_verts := rfl

@[simp] theorem set_z_vert_y_verts (s : MCState) (val : ℤ) (i j k : ℕ) :
    (set_z_vert s val i j k).y_verts = s.y_verts := rfl

@[simp] theorem set_z_vert_nverts (s : MCState) (val : ℤ) (i j k : ℕ) :
    (set_z_vert s val i j k).nverts = s.nverts := rfl

@[simp] theorem add_triangle_x_verts (s : MCState) (i j k : ℕ) (trig : List ℤ) (n : ℕ) (v12 : ℤ) :
    (add_triangle s i j k trig n v12).x_verts = s.x_verts := rfl

@[simp] theorem add_triangle_y_verts (s : MCState) (i j k : ℕ) (trig : List ℤ) (n : ℕ) (v12 : ℤ) :
    (add_triangle s i j k trig n v12).y_verts = s.y_verts := rfl

@[simp] theorem add_triangle_z_verts (s : MCState) (i j k : ℕ) (trig : List ℤ) (n : ℕ) (v12 : ℤ) :
    (add_triangle s i j k trig n v12).z_verts = s.z_verts := rfl

@[simp] theorem add_triangle_nverts (s : MCState) (i j k : ℕ) (trig : List ℤ) (n : ℕ) (v12 : ℤ) :
    (add_triangle s i j k trig n v12).nverts = s.nverts := rfl

/-- The x-edge intersection condition of the edge pass at `(i,j,k)`: the
source's nested sign branches (lines 167-178) on the perturbed corner
value and its perturbed +x neighbour, the neighbour being duplicated from
the corner at the +x boundary (which makes the condition false there). -/
def cip_condX (sx : ℕ) (data : ℕ → ℕ → ℕ → ℚ) (iso : ℚ) (i j k : ℕ) : Prop :=
  let c0 := perturb (data i j k - iso)
  let c1 := if i < sx - 1 then perturb (data (i+1) j k - iso) else c0
  (c0 < 0 ∧ 0 < c1) ∨ (¬ c0 < 0 ∧ c1 < 0)

/-- The y-edge intersection condition (neighbour along +y). -/
def cip_condY (sy : ℕ) (data : ℕ → ℕ → ℕ → ℚ) (iso : ℚ) (i j k : ℕ) : Prop :=
  let c0 := perturb (data i j k - iso)
  let c3 := if j < sy - 1 then perturb (data i (j+1) k - iso) else c0
  (c0 < 0 ∧ 0 < c3) ∨ (¬ c0 < 0 ∧ c3 < 0)

/-- The z-edge intersection condition (neighbour along +z). -/
def cip_condZ (sz : ℕ) (data : ℕ → ℕ → ℕ → ℚ) (iso : ℚ) (i j k : ℕ) : Prop :=
  let c0 := perturb (data i j k - iso)
  let c4 := if k < sz - 1 then perturb (data i j (k+1) - iso) else c0
  (c0 < 0 ∧ 0 < c4) ∨ (¬ c0 < 0 ∧ c4 < 0)

/-!
Stage lemmas for the edge pass: each conditional intern-stage of
`cip_step` leaves the other two maps untouched, and marks its own map
as interned (non-sentinel) at its key exactly when its condition holds.
-/

@[simp] theorem ite_stage_x_y_verts (P : Prop) [Decidable P] (m : MCState)
    (i j k : ℕ) (c0 c1 : ℚ) :
    (if P then set_x_vert (add_x_vertex m i j k c0 c1) (m.nverts : ℤ) i j k else m).y_verts
      = m.y_verts := by
  split_ifs <;> simp

@[simp] theorem ite_stage_x_z_verts (P : Prop) [Decidable P] (m : MCState)
    (i j k : ℕ) (c0 c1 : ℚ) :
    (if P then set_x_vert (add_x_vertex m i j k c0 c1) (m.nverts : ℤ) i j k else m).z_verts
      = m.z_verts := by
  split_ifs <;> simp

theorem ite_stage_x_x_verts_ne (P : Prop) [Decidable P] (m : MCState)
    (i j k : ℕ) (c0 c1 : ℚ) (p : ℕ × ℕ × ℕ) :
    ((if P then set_x_vert (add_x_vertex m i j k c0 c1) (m.nverts : ℤ) i j k else m).x_verts p ≠ -1)
      ↔ ((P ∧ p = (i, j, k)) ∨ m.x_verts p ≠ -1) := by
  split_ifs with h
  · simp only [set_x_vert_x_verts, add_x_vertex_x_verts, add_x_vertex_nverts]
    by_cases hp : p = (i, j, k) <;> simp [hp, h] <;> omega
  · simp [h]

@[simp] theorem ite_stage_y_x_verts (P : Prop) [Decidable P] (m : MCState)
    (i j k : ℕ) (c0 c3 : ℚ) :
    (if P then set_y_vert (add_y_vertex m i j k c0 c3) (m.nverts : ℤ) i j k else m).x_verts
      = m.x_verts := by
  split_ifs <;> simp

@[simp] theorem ite_stage_y_z_verts (P : Prop) [Decidable P] (m : MCState)
    (i j k : ℕ) (c0 c3 : ℚ) :
    (if P then set_y_vert (add_y_vertex m i j k c0 c3) (m.nverts : ℤ) i j k else m).z_verts
      = m.z_verts := by
  split_ifs <;> simp

theorem ite_stage_y_y_verts_ne (P : Prop) [Decidable P] (m : MCState)
    (i j k : ℕ) (c0 c3 : ℚ) (p : ℕ × ℕ × ℕ) :
    ((if P then set_y_vert (add_y_vertex m i j k c0 c3) (m.nverts : ℤ) i j k else m).y_verts p ≠ -1)
      ↔ ((P ∧ p = (i, j, k)) ∨ m.y_verts p ≠ -1) := by
  split_ifs with h
  · simp only [set_y_vert_y_verts, add_y_vertex_y_verts, add_y_vertex_nverts]
    by_cases hp : p = (i, j, k) <;> simp [hp, h] <;> omega
  · simp [h]

@[simp] theorem ite_stage_z_x_verts (P : Prop) [Decidable P] (m : MCState)
    (i j k : ℕ) (c0 c4 : ℚ) :
    (if P then set_z_vert (add_z_vertex m i j k c0 c4) (m.nverts : ℤ) i j k else m).x_verts
      = m.x_verts := by
  split_ifs <;> simp

@[simp] theorem ite_stage_z_y_verts (P : Prop) [Decidable P] (m : MCState)
    (i j k : ℕ) (c0 c4 : ℚ) :
    (if P then set_z_vert (add_z_vertex m i j k c0 c4) (m.nverts : ℤ) i j k else m).y_verts
      = m.y_verts := by
  split_ifs <;> simp

theorem ite_stage_z_z_verts_ne (P : Prop) [Decidable P] (m : MCState)
    (i j k : ℕ) (c0 c4 : ℚ) (p : ℕ × ℕ × ℕ) :
    ((if P then set_z_vert (add_z_vertex m i j k c0 c4) (m.nverts : ℤ) i j k else m).z_verts p ≠ -1)
      ↔ ((P ∧ p = (i, j, k)) ∨ m.z_verts p ≠ -1) := by
  split_ifs with h
  · simp only [set_z_vert_z_verts, add_z_vertex_z_verts, add_z_vertex_nverts]
    by_cases hp : p = (i, j, k) <;> simp [hp, h] <;> omega
  · simp [h]

/-- One step of the edge pass interns a x-vertex at its own key exactly
when the x-edge sign condition holds, and touches no other x-entry. -/
theorem cip_step_x_verts (iso : ℚ) (s : MCState) (i j k : ℕ) (p : ℕ × ℕ × ℕ) :
    ((cip_step iso s (i, j, k)).x_verts p ≠ -1) ↔
      ((p = (i, j, k) ∧ cip_condX s.size_x s.data iso i j k) ∨ s.x_verts p ≠ -1) := by
  unfold cip_step cip_condX
  dsimp only
  by_cases h0 : perturb (s.data i j k - iso) < 0
  · simp only [if_pos h0, ite_stage_y_x_verts, ite_stage_z_x_verts,
      ite_stage_x_x_verts_ne]
    tauto
  · simp only [if_neg h0, ite_stage_y_x_verts, ite_stage_z_x_verts,
      ite_stage_x_x_verts_ne]
    tauto

/-- One step of the edge pass interns a y-vertex at its own key exactly
when the y-edge sign condition holds, and touches no other y-entry. -/
theorem cip_step_y_verts (iso : ℚ) (s : MCState) (i j k : ℕ) (p : ℕ × ℕ × ℕ) :
    ((cip_step iso s (i, j, k)).y_verts p ≠ -1) ↔
      ((p = (i, j, k) ∧ cip_condY s.size_y s.data iso i j k) ∨ s.y_verts p ≠ -1) := by
  unfold cip_step cip_condY
  dsimp only
  by_cases h0 : perturb (s.data i j k - iso) < 0
  · simp only [if_pos h0, ite_stage_x_y_verts, ite_stage_z_y_verts,
      ite_stage_y_y_verts_ne]
    tauto
  · simp only [if_neg h0, ite_stage_x_y_verts, ite_stage_z_y_verts,
      ite_stage_y_y_verts_ne]
    tauto

/-- One step of the edge pass interns a z-vertex at its own key exactly
when the z-edge sign condition holds, and touches no other z-entry. -/
theorem cip_step_z_verts (iso : ℚ) (s : MCState) (i j k : ℕ) (p : ℕ × ℕ × ℕ) :
    ((cip_step iso s (i, j, k)).z_verts p ≠ -1) ↔
      ((p = (i, j, k) ∧ cip_condZ s.size_z s.data iso i j k) ∨ s.z_verts p ≠ -1) := by
  unfold cip_step cip_condZ
  dsimp only
  by_cases h0 : perturb (s.data i j k - iso) < 0
  · simp only [if_pos h0, ite_stage_x_z_verts, ite_stage_y_z_verts,
      ite_stage_z_z_verts_ne]
    tauto
  · simp only [if_neg h0, ite_stage_x_z_verts, ite_stage_y_z_verts,
      ite_stage_z_z_verts_ne]
    tauto

/-- The perturbed value is never zero: either it is `ε`, or its absolute
value is at least `ε`. -/
theorem perturb_ne_zero (v : ℚ) : perturb v ≠ 0 := by
  unfold perturb
  split_ifs with h
  · norm_num [eps]
  · intro hv
    rw [hv] at h
    simp [eps] at h

/-- For non-zero endpoint values, the pass's nested sign branches are the
strict opposite-sign condition. -/
theorem opposite_signs_iff (c0 c1 : ℚ) (h0 : c0 ≠ 0) (h1 : c1 ≠ 0) :
    ((c0 < 0 ∧ 0 < c1) ∨ (¬ c0 < 0 ∧ c1 < 0)) ↔ c0 * c1 < 0 := by
  rw [mul_neg_iff]
  constructor
  · rintro (⟨a, b⟩ | ⟨a, b⟩)
    · exact Or.inr ⟨a, b⟩
    · exact Or.inl ⟨(not_lt.mp a).lt_of_ne (Ne.symm h0), b⟩
  · rintro (⟨a, b⟩ | ⟨a, b⟩)
    · exact Or.inr ⟨not_lt.mpr a.le, b⟩
    · exact Or.inl ⟨a, b⟩

/-- A duplicated endpoint (the boundary case) never satisfies the sign
branches. -/
theorem no_self_intersection (c0 : ℚ) :
    ¬ ((c0 < 0 ∧ 0 < c0) ∨ (¬ c0 < 0 ∧ c0 < 0)) := by
  rintro (⟨a, b⟩ | ⟨a, b⟩)
  · linarith
  · exact a b

/-- Away from the +x boundary, the x-edge condition is the opposite-sign
test of the two perturbed endpoint values. -/
theorem cip_condX_interior (sx : ℕ) (data : ℕ → ℕ → ℕ → ℚ) (iso : ℚ) (i j k : ℕ)
    (h : i + 1 < sx) :
    cip_condX sx data iso i j k ↔
      perturb (data i j k - iso) * perturb (data (i+1) j k - iso) < 0 := by
  unfold cip_condX
  dsimp only
  rw [if_pos (by omega : i < sx - 1)]
  exact opposite_signs_iff _ _ (perturb_ne_zero _) (perturb_ne_zero _)

/-- At the +x boundary the x-edge condition is false (the neighbour value
is duplicated). -/
theorem cip_condX_boundary (sx : ℕ) (data : ℕ → ℕ → ℕ → ℚ) (iso : ℚ) (i j k : ℕ)
    (h : i + 1 = sx) : ¬ cip_condX sx data iso i j k := by
  unfold cip_condX
  dsimp only
  rw [if_neg (by omega : ¬ i < sx - 1)]
  exact no_self_intersection _

/-- Away from the +y boundary, the y-edge condition is the opposite-sign
test. -/
theorem cip_condY_interior (sy : ℕ) (data : ℕ → ℕ → ℕ → ℚ) (iso : ℚ) (i j k : ℕ)
    (h : j + 1 < sy) :
    cip_condY sy data iso i j k ↔
      perturb (data i j k - iso) * perturb (data i (j+1) k - iso) < 0 := by
  unfold cip_condY
  dsimp only
  rw [if_pos (by omega : j < sy - 1)]
  exact opposite_signs_iff _ _ (perturb_ne_zero _) (perturb_ne_zero _)

/-- At the +y boundary the y-edge condition is false. -/
theorem cip_condY_boundary (sy : ℕ) (data : ℕ → ℕ → ℕ → ℚ) (iso : ℚ) (i j k : ℕ)
    (h : j + 1 = sy) : ¬ cip_condY sy data iso i j k := by
  unfold cip_condY
  dsimp only
  rw [if_neg (by omega : ¬ j < sy - 1)]
  exact no_self_intersection _

/-- Away from the +z boundary, the z-edge condition is the opposite-sign
test. -/
theorem cip_condZ_interior (sz : ℕ) (data : ℕ → ℕ → ℕ → ℚ) (iso : ℚ) (i j k : ℕ)
    (h : k + 1 < sz) :
    cip_condZ sz data iso i j k ↔
      perturb (data i j k - iso) * perturb (data i j (k+1) - iso) < 0 := by
  unfold cip_condZ
  dsimp only
  rw [if_pos (by omega : k < sz - 1)]
  exact opposite_signs_iff _ _ (perturb_ne_zero _) (perturb_ne_zero _)

/-- At the +z boundary the z-edge condition is false. -/
theorem cip_condZ_boundary (sz : ℕ) (data : ℕ → ℕ → ℕ → ℚ) (iso : ℚ) (i j k : ℕ)
    (h : k + 1 = sz) : ¬ cip_condZ sz data iso i j k := by
  unfold cip_condZ
  dsimp only
  rw [if_neg (by omega : ¬ k < sz - 1)]
  exact no_self_intersection _

/-- Membership in the triple-loop domain is exactly the bound
constraints. -/
theorem mem_indices3 (nx ny nz : ℕ) (p : ℕ × ℕ × ℕ) :
    p ∈ indices3 nx ny nz ↔ p.1 < nx ∧ p.2.1 < ny ∧ p.2.2 < nz := by
  obtain ⟨i, j, k⟩ := p
  simp only [indices3, List.mem_flatMap, List.mem_range, List.mem_map]
  constructor
  · rintro ⟨k', hk', j', hj', i', hi', heq⟩
    cases heq
    exact ⟨hi', hj', hk'⟩
  · rintro ⟨hi, hj, hk⟩
    exact ⟨k, hk, j, hj, i, hi, rfl⟩

/-- Folding the edge pass over a list of grid points: an x-entry is
interned iff its point was visited with a true x-condition, or it was
already interned. -/
theorem cip_fold_x (iso : ℚ) (L : List (ℕ × ℕ × ℕ)) :
    ∀ (s : MCState) (p : ℕ × ℕ × ℕ),
      ((L.foldl (cip_step iso) s).x_verts p ≠ -1) ↔
        ((p ∈ L ∧ cip_condX s.size_x s.data iso p.1 p.2.1 p.2.2) ∨ s.x_verts p ≠ -1) := by
  induction L with
  | nil => intro s p; simp
  | cons a L ih =>
    intro s p
    rw [List.foldl_cons, ih]
    obtain ⟨ai, aj, ak⟩ := a
    rw [(cip_step_same_grid iso s (ai, aj, ak)).1,
      (cip_step_same_grid iso s (ai, aj, ak)).2.2.2.1,
      cip_step_x_verts]
    by_cases hp : p = (ai, aj, ak)
    · subst hp
      simp only [List.mem_cons, true_or, true_and, eq_self_iff_true]
      tauto
    · simp only [List.mem_cons, hp, false_or, false_and]

/-- The y-map analogue of `cip_fold_x`. -/
theorem cip_fold_y (iso : ℚ) (L : List (ℕ × ℕ × ℕ)) :
    ∀ (s : MCState) (p : ℕ × ℕ × ℕ),
      ((L.foldl (cip_step iso) s).y_verts p ≠ -1) ↔
        ((p ∈ L ∧ cip_condY s.size_y s.data iso p.1 p.2.1 p.2.2) ∨ s.y_verts p ≠ -1) := by
  induction L with
  | nil => intro s p; simp
  | cons a L ih =>
    intro s p
    rw [List.foldl_cons, ih]
    obtain ⟨ai, aj, ak⟩ := a
    rw [(cip_step_same_grid iso s (ai, aj, ak)).2.1,
      (cip_step_same_grid iso s (ai, aj, ak)).2.2.2.1,
      cip_step_y_verts]
    by_cases hp : p = (ai, aj, ak)
    · subst hp
      simp only [List.mem_cons, true_or, true_and, eq_self_iff_true]
      tauto
    · simp only [List.mem_cons, hp, false_or, false_and]

/-- The z-map analogue of `cip_fold_x`. -/
theorem cip_fold_z (iso : ℚ) (L : List (ℕ × ℕ × ℕ)) :
    ∀ (s : MCState) (p : ℕ × ℕ × ℕ),
      ((L.foldl (cip_step iso) s).z_verts p ≠ -1) ↔
        ((p ∈ L ∧ cip_condZ s.size_z s.data iso p.1 p.2.1 p.2.2) ∨ s.z_verts p ≠ -1) := by
  induction L with
  | nil => intro s p; simp
  | cons a L ih =>
    intro s p
    rw [List.foldl_cons, ih]
    obtain ⟨ai, aj, ak⟩ := a
    rw [(cip_step_same_grid iso s (ai, aj, ak)).2.2.1,
      (cip_step_same_grid iso s (ai, aj, ak)).2.2.2.1,
      cip_step_z_verts]
    by_cases hp : p = (ai, aj, ak)
    · subst hp
      simp only [List.mem_cons, true_or, true_and, eq_self_iff_true]
      tauto
    · simp only [List.mem_cons, hp, false_or, false_and]

/-- C6: after the edge-intersection pass (on an initialized state), for
every `(i,j,k)` in the grid: the x-edge map entry at `(i,j,k)` holds a
vertex id (is not the sentinel `-1`) iff the perturbed values
`f(i,j,k) − τ` and `f(i+1,j,k) − τ` have strictly opposite signs — and
analogously for the y- and z-edge maps; entries for edges that would
leave the grid at the +x, +y or +z boundary always remain at the
sentinel. -/
theorem C6_sentinel_consistency (s : MCState) (iso : ℚ) (i j k : ℕ)
    (hi : i < s.size_x) (hj : j < s.size_y) (hk : k < s.size_z) :
    ((i + 1 < s.size_x →
        ((compute_intersection_points iso (init_all s)).x_verts (i, j, k) ≠ -1 ↔
          perturb (s.data i j k - iso) * perturb (s.data (i+1) j k - iso) < 0)) ∧
      (i + 1 = s.size_x →
        (compute_intersection_points iso (init_all s)).x_verts (i, j, k) = -1)) ∧
    ((j + 1 < s.size_y →
        ((compute_intersection_points iso (init_all s)).y_verts (i, j, k) ≠ -1 ↔
          perturb (s.data i j k - iso) * perturb (s.data i (j+1) k - iso) < 0)) ∧
      (j + 1 = s.size_y →
        (compute_intersection_points iso (init_all s)).y_verts (i, j, k) = -1)) ∧
    ((k + 1 < s.size_z →
        ((compute_intersection_points iso (init_all s)).z_verts (i, j, k) ≠ -1 ↔
          perturb (s.data i j k - iso) * perturb (s.data i j (k+1) - iso) < 0)) ∧
      (k + 1 = s.size_z →
        (compute_intersection_points iso (init_all s)).z_verts (i, j, k) = -1)) := by
  have hx : (compute_intersection_points iso (init_all s)).x_verts (i, j, k) ≠ -1 ↔
      cip_condX s.size_x s.data iso i j k := by
    unfold compute_intersection_points
    rw [cip_fold_x, mem_indices3]
    show ((i < s.size_x ∧ j < s.size_y ∧ k < s.size_z) ∧
        cip_condX s.size_x s.data iso i j k) ∨ (-1 : ℤ) ≠ -1 ↔ _
    simp [hi, hj, hk]
  have hy : (compute_intersection_points iso (init_all s)).y_verts (i, j, k) ≠ -1 ↔
      cip_condY s.size_y s.data iso i j k := by
    unfold compute_intersection_points
    rw [cip_fold_y, mem_indices3]
    show ((i < s.size_x ∧ j < s.size_y ∧ k < s.size_z) ∧
        cip_condY s.size_y s.data iso i j k) ∨ (-1 : ℤ) ≠ -1 ↔ _
    simp [hi, hj, hk]
  have hz : (compute_intersection_points iso (init_all s)).z_verts (i, j, k) ≠ -1 ↔
      cip_condZ s.size_z s.data iso i j k := by
    unfold compute_intersection_points
    rw [cip_fold_z, mem_indices3]
    show ((i < s.size_x ∧ j < s.size_y ∧ k < s.size_z) ∧
        cip_condZ s.size_z s.data iso i j k) ∨ (-1 : ℤ) ≠ -1 ↔ _
    simp [hi, hj, hk]
  refine ⟨⟨fun h => ?_, fun h => ?_⟩, ⟨fun h => ?_, fun h => ?_⟩, fun h => ?_, fun h => ?_⟩
  · rw [hx]
    exact cip_condX_interior s.size_x s.data iso i j k h
  · exact not_ne_iff.mp fun hne => cip_condX_boundary s.size_x s.data iso i j k h (hx.mp hne)
  · rw [hy]
    exact cip_condY_interior s.size_y s.data iso i j k h
  · exact not_ne_iff.mp fun hne => cip_condY_boundary s.size_y s.data iso i j k h (hy.mp hne)
  · rw [hz]
    exact cip_condZ_interior s.size_z s.data iso i j k h
  · exact not_ne_iff.mp fun hne => cip_condZ_boundary s.size_z s.data iso i j k h (hz.mp hne)

/-- Witness for C6 on the 2×1×1 grid `gridC5` at `(0,0,0)` and `τ = 0`:
the x-edge is interior (and sign-changing), the y- and z-edges sit at
the boundary. -/
theorem C6_sentinel_consistency_witness :
    ((0 : ℕ) < 2 ∧ (0 : ℕ) < 1 ∧ (0 : ℕ) < 1) ∧
    (((0 + 1 < 2 →
        ((compute_intersection_points 0 (init_all gridC5)).x_verts (0, 0, 0) ≠ -1 ↔
          perturb (gridC5.data 0 0 0 - 0) * perturb (gridC5.data 1 0 0 - 0) < 0)) ∧
      (0 + 1 = 2 →
        (compute_intersection_points 0 (init_all gridC5)).x_verts (0, 0, 0) = -1)) ∧
     ((0 + 1 < 1 →
        ((compute_intersection_points 0 (init_all gridC5)).y_verts (0, 0, 0) ≠ -1 ↔
          perturb (gridC5.data 0 0 0 - 0) * perturb (gridC5.data 0 1 0 - 0) < 0)) ∧
      (0 + 1 = 1 →
        (compute_intersection_points 0 (init_all gridC5)).y_verts (0, 0, 0) = -1)) ∧
     ((0 + 1 < 1 →
        ((compute_intersection_points 0 (init_all gridC5)).z_verts (0, 0, 0) ≠ -1 ↔
          perturb (gridC5.data 0 0 0 - 0) * perturb (gridC5.data 0 0 1 - 0) < 0)) ∧
      (0 + 1 = 1 →
        (compute_intersection_points 0 (init_all gridC5)).z_verts (0, 0, 0) = -1))) :=
  ⟨⟨by decide, by decide, by decide⟩,
   C6_sentinel_consistency gridC5 0 0 0 0 (by decide) (by decide) (by decide)⟩
